import Mathlib

/-!
Verification development for the TaglessCRM batched event delivery engine.

The definitions below are a shallow embedding of the two output hooks of the
repository:

* `plugins/pipeline_plugins/hooks/ads_ssd_hook.py`
  (`GoogleAdsStoreSalesConversionsHook`): local validation of store sales
  conversion events, batching, and dispatch via the Adwords API.
* `plugins/pipeline_plugins/hooks/ga4_hook.py` (`GoogleAnalyticsV4Hook`):
  remote validation of Google Analytics 4 events and per-event dispatch.

Python dictionaries are embedded as association lists with unique keys,
Python values as the inductive `Val` (strings, integers and `None`), and
Python exceptions as `Except` results: `PyErr.value c` stands for a raised
`DataOutConnectorValueError` carrying error code `c`, while `PyErr.typeError`
stands for an uncaught `TypeError`/`AttributeError` (raised e.g. by
`re.match` or `str.isdigit` applied to a non-string, or by the
`validationBehavior` item assignment of `ga4_hook.py` when a payload string
decoded to non-dict JSON).

The repository modules `utils/blob.py`, `utils/errors.py` and
`hooks/ads_hook.py` are not part of the sources; the entities taken from
them (`Blob`, `ErrorNameIDMap`, the dispatch/retry machinery behind
`add_store_sales_conversions`) are modelled from the specification and are
marked as such in their doc comments.  Outbound network traffic (the Adwords
`mutate` call, `requests.post`) is modelled by oracle functions passed as
explicit parameters, and the list of performed calls is returned as part of
each hook's outcome so that claims about dispatch counts are statable.
-/
/-- Modelled from the spec: the repository's `utils/errors.py` module is not
among the sources.  `ErrorNameIDMap` is the fixed taxonomy of error codes
(§7 of the spec); the constructor names are the ones referenced by the two
hook sources and their tests.  `ADS_HOOK_ERROR_AUTHENTICATION_FAILED` is the
authentication/credential failure code surfaced by the missing
`ads_hook.py` dispatch layer. -/
inductive ErrorNameIDMap where
  | ADS_SSD_HOOK_ERROR_EMPTY_UPLOAD_ID
  | ADS_SSD_HOOK_ERROR_PAYLOAD_FIELD_VIOLATES_SHA256_FORMAT
  | ADS_SSD_HOOK_ERROR_MISSING_MANDATORY_FIELDS
  | ADS_SSD_HOOK_ERROR_MISSING_IDENTIFIER_FIELD
  | ADS_SSD_HOOK_ERROR_INVALID_FORMAT_OF_CONVERSION_TIME
  | ADS_SSD_HOOK_ERROR_INVALID_CONVERSION_VALUE
  | ADS_SSD_HOOK_ERROR_INVALID_CURRENCY
  | ADS_SSD_HOOK_ERROR_INVALID_LENGTH_OF_CONVERSION_NAME
  | ADS_HOOK_ERROR_AUTHENTICATION_FAILED
  | GA4_HOOK_ERROR_INVALID_JSON_STRUCTURE
  | RETRIABLE_GA4_HOOK_ERROR_HTTP_ERROR
  | GA4_HOOK_ERROR_VALUE_REQUIRED_CLIENT_ID
  | GA4_HOOK_ERROR_VALUE_INVALID_USER_ID
  | GA4_HOOK_ERROR_VALUE_INVALID_TIMESTAMP_MICROS
  | GA4_HOOK_ERROR_VALUE_INVALID_USER_PROPERTIES
  | GA4_HOOK_ERROR_VALUE_INVALID_NON_PERSONALIZED_ADS
  | GA4_HOOK_ERROR_VALUE_INVALID_EVENTS
  | GA4_HOOK_ERROR_VALUE_INVALID_EVENTS_PARAMS
  | GA4_HOOK_ERROR_VALUE_INVALID_EVENTS_PARAMS_ITEMS
  | GA4_HOOK_ERROR_INVALID_VALUES
  | RETRIABLE_GA_HOOK_ERROR_HTTP_ERROR
deriving DecidableEq, Repr, Inhabited

/-- Modelled from the spec: the numeric `.value` of each enum member of
`ErrorNameIDMap` (`utils/errors.py` is missing from the sources).  The blob
stores this number for each failed event; the concrete numbering is
irrelevant to every claim, only injectivity is ever used. -/
def ErrorNameIDMap.value : ErrorNameIDMap → Nat
  | .ADS_SSD_HOOK_ERROR_EMPTY_UPLOAD_ID => 10
  | .ADS_SSD_HOOK_ERROR_PAYLOAD_FIELD_VIOLATES_SHA256_FORMAT => 11
  | .ADS_SSD_HOOK_ERROR_MISSING_MANDATORY_FIELDS => 12
  | .ADS_SSD_HOOK_ERROR_MISSING_IDENTIFIER_FIELD => 13
  | .ADS_SSD_HOOK_ERROR_INVALID_FORMAT_OF_CONVERSION_TIME => 14
  | .ADS_SSD_HOOK_ERROR_INVALID_CONVERSION_VALUE => 15
  | .ADS_SSD_HOOK_ERROR_INVALID_CURRENCY => 16
  | .ADS_SSD_HOOK_ERROR_INVALID_LENGTH_OF_CONVERSION_NAME => 17
  | .ADS_HOOK_ERROR_AUTHENTICATION_FAILED => 18
  | .GA4_HOOK_ERROR_INVALID_JSON_STRUCTURE => 30
  | .RETRIABLE_GA4_HOOK_ERROR_HTTP_ERROR => 31
  | .GA4_HOOK_ERROR_VALUE_REQUIRED_CLIENT_ID => 32
  | .GA4_HOOK_ERROR_VALUE_INVALID_USER_ID => 33
  | .GA4_HOOK_ERROR_VALUE_INVALID_TIMESTAMP_MICROS => 34
  | .GA4_HOOK_ERROR_VALUE_INVALID_USER_PROPERTIES => 35
  | .GA4_HOOK_ERROR_VALUE_INVALID_NON_PERSONALIZED_ADS => 36
  | .GA4_HOOK_ERROR_VALUE_INVALID_EVENTS => 37
  | .GA4_HOOK_ERROR_VALUE_INVALID_EVENTS_PARAMS => 38
  | .GA4_HOOK_ERROR_VALUE_INVALID_EVENTS_PARAMS_ITEMS => 39
  | .GA4_HOOK_ERROR_INVALID_VALUES => 40
  | .RETRIABLE_GA_HOOK_ERROR_HTTP_ERROR => 41

/-- A Python value as far as the two hooks inspect one: a string, an integer
or `None`.  Integers stand for any non-string, non-`None` value fed to a
string-only operation. -/
inductive Val where
  | str (s : String)
  | int (n : Int)
  | none
deriving DecidableEq, Repr, Inhabited

/-- Python truthiness (`if not v`) for the values of `Val`. -/
def Val.truthy : Val → Bool
  | .str s => !s.isEmpty
  | .int n => n != 0
  | .none => false

/-- Is the value a Python `str`? -/
def Val.isStr : Val → Bool
  | .str _ => true
  | _ => false

/-- A raw record: a Python dict embedded as an association list with the
dict's (unique-key) insertion order. -/
abbrev Event := List (String × Val)

/-- Support for `event[k]` and `k in event.keys()`: first binding of key `k`. -/
def getField (e : Event) (k : String) : Option Val :=
  (e.find? (fun p => p.1 == k)).map (·.2)

/-- Python's `k in event.keys()`. -/
def hasField (e : Event) (k : String) : Bool :=
  (getField e k).isSome

/-- A raised Python exception as the hooks distinguish them:
`value c` is `DataOutConnectorValueError` with error code `c` (caught by the
validation loops), `typeError` is an uncaught `TypeError`/`AttributeError`
from applying a string operation to a non-string value. -/
inductive PyErr where
  | value (code : ErrorNameIDMap)
  | typeError
deriving DecidableEq, Repr

/-- ASCII hexadecimal digit, the character class of `^[A-Fa-f0-9]{64}$`. -/
def isHexChar (c : Char) : Bool :=
  c.isDigit || ('a' ≤ c && c ≤ 'f') || ('A' ≤ c && c ≤ 'F')

/-- Python's `re.match(_SHA256_DIGEST_PATTERN, s)` with
`_SHA256_DIGEST_PATTERN = '^[A-Fa-f0-9]{64}$'`: 64 hexadecimal characters.
Python's `$` also matches just before one trailing newline, hence the second
disjunct. -/
def matchesSha256 (s : String) : Bool :=
  let cs := s.toList
  (cs.length == 64 && cs.all isHexChar) ||
    (cs.length == 65 && cs.getLast? == some '\n' && (cs.take 64).all isHexChar)

/-- The character class backslash-w, slash or hyphen of `_RE_STRING_DATE_TIME` (ASCII word characters
together with slash and hyphen). -/
def isTzChar (c : Char) : Bool :=
  c.isAlphanum || c == '_' || c == '/' || c == '-'

/-- Python's `re.match(_RE_STRING_DATE_TIME, s)` with
the raw pattern of eight digits,
space, six digits, space, then one-or-more of the timezone class.  `re.match` anchors only
at the start of the string, so this is a prefix match: eight digits, a
space, six digits, a space, and at least one backslash-w, slash or hyphen character; any
trailing characters are ignored. -/
def reMatchDateTime (s : String) : Bool :=
  let cs := s.toList
  decide (17 ≤ cs.length) &&
    (cs.take 8).all Char.isDigit &&
    (cs.get? 8 == some ' ') &&
    ((cs.drop 9).take 6).all Char.isDigit &&
    (cs.get? 15 == some ' ') &&
    (match cs.get? 16 with
     | some c => isTzChar c
     | Option.none => false)

/-- The specification's reading of the timestamp rule, for comparison with
`reMatchDateTime`: the WHOLE string must be eight digits, a space, six
digits, a space, and a non-empty run of backslash-w, slash or hyphen characters reaching the
end of the string. -/
def specWholeDateTime (s : String) : Bool :=
  let cs := s.toList
  decide (17 ≤ cs.length) &&
    (cs.take 8).all Char.isDigit &&
    (cs.get? 8 == some ' ') &&
    ((cs.drop 9).take 6).all Char.isDigit &&
    (cs.get? 15 == some ' ') &&
    (cs.drop 16).all isTzChar

/-- Python `str.isdigit`: non-empty and every character a digit. -/
def pyIsDigit (s : String) : Bool :=
  !s.isEmpty && s.toList.all Char.isDigit

/-- Function `_validate_sha256_pattern` of `ads_ssd_hook.py`: `None` or a
non-matching string raises `DataOutConnectorValueError`; `re.match` applied
to any other non-string raises an uncaught `TypeError`. -/
def validateSha256Pattern : Val → Except PyErr Unit
  | .none => .error (.value .ADS_SSD_HOOK_ERROR_PAYLOAD_FIELD_VIOLATES_SHA256_FORMAT)
  | .str s =>
    if matchesSha256 s then .ok ()
    else .error (.value .ADS_SSD_HOOK_ERROR_PAYLOAD_FIELD_VIOLATES_SHA256_FORMAT)
  | .int _ => .error .typeError

/-- List `store_sales_transaction_fields` of `_format_event`. -/
def mandatoryFields : List String :=
  ["transactionTime", "microAmount", "currencyCode", "conversionName"]

/-- Table `identifier_types` of `_format_event`, in the dict's insertion order.
Note the source really maps `firstName` to `HASHED_LAST_NAME` and
`lastName` to `HASHED_FIRST_NAME`. -/
def identifierTypes : List (String × String) :=
  [("email", "HASHED_EMAIL"),
   ("email2", "HASHED_EMAIL"),
   ("email3", "HASHED_EMAIL"),
   ("firstName", "HASHED_LAST_NAME"),
   ("lastName", "HASHED_FIRST_NAME"),
   ("city", "CITY"),
   ("state", "STATE"),
   ("zip", "ZIPCODE"),
   ("country", "COUNTRY_CODE"),
   ("phoneNumber", "HASHED_PHONE"),
   ("phoneNumber2", "HASHED_PHONE"),
   ("phoneNumber3", "HASHED_PHONE")]

/-- List `hashed_types` of `_format_event`. -/
def hashedTypes : List String :=
  ["HASHED_EMAIL", "HASHED_PHONE", "HASHED_LAST_NAME", "HASHED_FIRST_NAME"]

/-- The identifier-collecting loop of `_format_event`, over a remaining
suffix of `identifier_types`: present fields are appended as
`(userIdentifierType, value)` pairs, with hashed types checked by
`_validate_sha256_pattern` first. -/
def collectIdentifiersAux (e : Event) :
    List (String × String) → Except PyErr (List (String × Val))
  | [] => .ok []
  | (f, ty) :: rest =>
    match getField e f with
    | Option.none => collectIdentifiersAux e rest
    | Option.some v =>
      if hashedTypes.contains ty then
        match validateSha256Pattern v with
        | .error er => .error er
        | .ok _ =>
          match collectIdentifiersAux e rest with
          | .error er => .error er
          | .ok tl => .ok ((ty, v) :: tl)
      else
        match collectIdentifiersAux e rest with
        | .error er => .error er
        | .ok tl => .ok ((ty, v) :: tl)

/-- The `user_identifiers` list built by `_format_event`. -/
def collectIdentifiers (e : Event) : Except PyErr (List (String × Val)) :=
  collectIdentifiersAux e identifierTypes

/-- The destination-shaped record `{'StoreSalesTransaction': ...}` built by
`_format_event` (the nested `transactionAmount.money` wrapper is flattened
to its two leaves). -/
structure StoreSalesTransaction where
  userIdentifiers : List (String × Val)
  transactionTime : Val
  microAmount : Val
  currencyCode : Val
  conversionName : Val
deriving DecidableEq, Repr, Inhabited

/-- The `transactionTime` check of `_format_event`:
`re.match(_RE_STRING_DATE_TIME, event['transactionTime'])`.  A non-string
value raises an uncaught `TypeError`. -/
def checkTransactionTime : Val → Except PyErr Unit
  | .str s =>
    if reMatchDateTime s then .ok ()
    else .error (.value .ADS_SSD_HOOK_ERROR_INVALID_FORMAT_OF_CONVERSION_TIME)
  | _ => .error .typeError

/-- The `microAmount` check of `_format_event`:
`event['microAmount'].isdigit()`.  A non-string value raises an uncaught
`AttributeError`, embedded as `typeError`. -/
def checkMicroAmount : Val → Except PyErr Unit
  | .str s =>
    if pyIsDigit s then .ok ()
    else .error (.value .ADS_SSD_HOOK_ERROR_INVALID_CONVERSION_VALUE)
  | _ => .error .typeError

/-- The `conversionName` check of `_format_event`:
`not event['conversionName'] or len(event['conversionName']) > 100`.
Truthiness is evaluated first (short-circuit), so a falsy non-string raises
the value error while a truthy non-string reaches `len` and raises an
uncaught `TypeError`. -/
def checkConversionName : Val → Except PyErr Unit
  | v =>
    if !v.truthy then .error (.value .ADS_SSD_HOOK_ERROR_INVALID_LENGTH_OF_CONVERSION_NAME)
    else
      match v with
      | .str s =>
        if s.length > 100 then
          .error (.value .ADS_SSD_HOOK_ERROR_INVALID_LENGTH_OF_CONVERSION_NAME)
        else .ok ()
      | _ => .error .typeError

/-- Function `_format_event` of `ads_ssd_hook.py`: mandatory-field presence, the
identifier loop, the non-empty-identifier check, and the four field checks,
in source order. -/
def formatEvent (e : Event) : Except PyErr StoreSalesTransaction :=
  if !(mandatoryFields.all (fun f => hasField e f)) then
    .error (.value .ADS_SSD_HOOK_ERROR_MISSING_MANDATORY_FIELDS)
  else
    match collectIdentifiers e with
    | .error er => .error er
    | .ok ids =>
      if ids.isEmpty then
        .error (.value .ADS_SSD_HOOK_ERROR_MISSING_IDENTIFIER_FIELD)
      else
        let tt := (getField e "transactionTime").getD .none
        match checkTransactionTime tt with
        | .error er => .error er
        | .ok _ =>
          let ma := (getField e "microAmount").getD .none
          match checkMicroAmount ma with
          | .error er => .error er
          | .ok _ =>
            let cc := (getField e "currencyCode").getD .none
            if !cc.truthy then
              .error (.value .ADS_SSD_HOOK_ERROR_INVALID_CURRENCY)
            else
              let cn := (getField e "conversionName").getD .none
              match checkConversionName cn with
              | .error er => .error er
              | .ok _ => .ok ⟨ids, tt, ma, cc, cn⟩

/-- Modelled from the spec: `utils/blob.py` is not among the sources.  A
blob carries the ordered input events, the integer base position of this
chunk within the larger logical source (spec §3 `basePosition`), and the
accumulated failure records `(reportedIndex, rawRecord, errorNumValue)`
appended by `append_failed_event` (spec §3 `FailureRecord`). -/
structure Blob where
  events : List Event
  position : Nat
  failed_events : List (Nat × Event × Nat)
deriving DecidableEq, Repr, Inhabited

/-- Modelled from the spec: `Blob.append_failed_event(index, event,
error_num)` appends one failure record. -/
def Blob.append_failed_event (b : Blob) (idx : Nat) (ev : Event) (errNum : Nat) : Blob :=
  { b with failed_events := b.failed_events ++ [(idx, ev, errNum)] }

/-- The `enumerate` loop of `_validate_and_prepare_events_to_send`, started
at index `i`: events whose `_format_event` raises
`DataOutConnectorValueError` are collected as `(index, code)` failures, an
uncaught `TypeError` propagates and aborts, and formatted events are
collected as `(index, payload)` pairs. -/
def validateAndPrepareAux (i : Nat) :
    List Event →
      Except PyErr (List (Nat × StoreSalesTransaction) × List (Nat × ErrorNameIDMap))
  | [] => .ok ([], [])
  | e :: es =>
    match formatEvent e with
    | .error .typeError => .error .typeError
    | .error (.value c) =>
      match validateAndPrepareAux (i + 1) es with
      | .error er => .error er
      | .ok (v, inv) => .ok (v, (i, c) :: inv)
    | .ok p =>
      match validateAndPrepareAux (i + 1) es with
      | .error er => .error er
      | .ok (v, inv) => .ok ((i, p) :: v, inv)

/-- Function `_validate_and_prepare_events_to_send` of `ads_ssd_hook.py`. -/
def validateAndPrepareEventsToSend (events : List Event) :
    Except PyErr (List (Nat × StoreSalesTransaction) × List (Nat × ErrorNameIDMap)) :=
  validateAndPrepareAux 0 events

/-- Constant `_DEFAULT_BATCH_SIZE` of `ads_ssd_hook.py`. -/
def DEFAULT_BATCH_SIZE : Nat := 1000

/-- Function `_batch_generator` of `ads_ssd_hook.py`:
`for i in range(0, len(events), 1000): yield events[i:i+1000]`.  The Python
loop runs `ceil(len(events) / 1000)` times; iteration `i` yields the slice
`events[1000*i : 1000*i + 1000]`, here `(events.drop (1000*i)).take 1000`. -/
def batchGenerator (events : List α) : List (List α) :=
  (List.range ((events.length + (DEFAULT_BATCH_SIZE - 1)) / DEFAULT_BATCH_SIZE)).map
    (fun i => (events.drop (DEFAULT_BATCH_SIZE * i)).take DEFAULT_BATCH_SIZE)

/-- The batch loop of `send_events` (`ads_ssd_hook.py` lines 250-257), with
the call to the missing `ads_hook.add_store_sales_conversions` modelled by
the oracle `d`: `d k payloads` is `None` when the `k`-th
`add_store_sales_conversions` call returns normally and `some c` when it
raises `DataOutConnectorSendUnsuccessfulError` with `error_num = c` — in
which case every event of the batch is recorded as failed with `c`, and the
loop continues with the next batch.  Returns the indices of events in
batches that dispatched successfully and the `(index, code)` failures. -/
def dispatchBatches (d : Nat → List StoreSalesTransaction → Option ErrorNameIDMap) :
    Nat → List (List (Nat × StoreSalesTransaction)) →
      List Nat × List (Nat × ErrorNameIDMap)
  | _, [] => ([], [])
  | k, b :: bs =>
    let rest := dispatchBatches d (k + 1) bs
    match d k (b.map Prod.snd) with
    | Option.none => (b.map Prod.fst ++ rest.1, rest.2)
    | Option.some c => (rest.1, b.map (fun p => (p.1, c)) ++ rest.2)

/-- The observable outcome of `send_events` of the ads hook: the updated
blob, the payload lists handed to `add_store_sales_conversions` (one per
outbound dispatch call, in call order), and the original indices of the
events that were delivered successfully. -/
structure SsdOutcome where
  blob : Blob
  dispatched : List (List StoreSalesTransaction)
  delivered : List Nat
deriving DecidableEq, Repr, Inhabited

/-- Function `send_events` of `ads_ssd_hook.py`: validate and prepare, batch,
dispatch every batch (recording whole-batch failures), then append every
accumulated `(index, code)` failure to the blob as
`(index + position, events[index], code.value)`. -/
def sendEventsSSD (d : Nat → List StoreSalesTransaction → Option ErrorNameIDMap)
    (blb : Blob) : Except PyErr SsdOutcome :=
  match validateAndPrepareEventsToSend blb.events with
  | .error er => .error er
  | .ok (valid, invalid) =>
    let batches := batchGenerator valid
    let dres := dispatchBatches d 0 batches
    let allInvalid := invalid ++ dres.2
    let blb2 := allInvalid.foldl
      (fun b p =>
        b.append_failed_event (p.1 + b.position) ((b.events.getD p.1 [])) p.2.value)
      blb
    .ok ⟨blb2, batches.map (fun b => b.map Prod.snd), dres.1⟩

/-- A response of the GA4 validation endpoint as `_validate_events_to_send`
inspects it: either `requests.post` raises `requests.ConnectionError`, or a
response arrives with a status code and the `validationMessages` list of its
JSON body, each message carrying its `fieldPath` (any JSON value, embedded
as `Val`) and `description` string. -/
inductive GaValidationResp where
  | connError
  | resp (status : Nat) (messages : List (Val × String))
deriving DecidableEq, Repr, Inhabited

/-- Table `_ERROR_TYPES` of `ga4_hook.py`, in the dict's insertion order. -/
def ERROR_TYPES : List (String × ErrorNameIDMap) :=
  [("client_id", .GA4_HOOK_ERROR_VALUE_REQUIRED_CLIENT_ID),
   ("user_id", .GA4_HOOK_ERROR_VALUE_INVALID_USER_ID),
   ("timestamp_micros", .GA4_HOOK_ERROR_VALUE_INVALID_TIMESTAMP_MICROS),
   ("user_properties", .GA4_HOOK_ERROR_VALUE_INVALID_USER_PROPERTIES),
   ("non_personalized_ads", .GA4_HOOK_ERROR_VALUE_INVALID_NON_PERSONALIZED_ADS),
   ("events", .GA4_HOOK_ERROR_VALUE_INVALID_EVENTS),
   ("events.params", .GA4_HOOK_ERROR_VALUE_INVALID_EVENTS_PARAMS),
   ("events.params.items", .GA4_HOOK_ERROR_VALUE_INVALID_EVENTS_PARAMS_ITEMS)]

/-- Python's substring test `needle in haystack`. -/
def isSubstr (needle haystack : String) : Bool :=
  decide (List.IsInfix needle.toList haystack.toList)

/-- The matching loop over `_ERROR_TYPES` of `_validate_events_to_send`:
the first table entry whose property name equals the message's `fieldPath`
or occurs as a substring of its `description`. -/
def findErrorType (fieldPath : Val) (description : String) :
    Option (String × ErrorNameIDMap) :=
  ERROR_TYPES.find? (fun p => fieldPath == Val.str p.1 || isSubstr p.1 description)

/-- What `json.loads` does with a payload string, as far as
`_validate_events_to_send` can observe it: raise a
`json.decoder.JSONDecodeError` (caught), return a JSON value that is not an
object — in which case the item assignment
`payload_dict['validationBehavior'] = 'ENFORCE_RECOMMENDATIONS'`, which
sits OUTSIDE the try block, raises an uncaught `TypeError` — or return a
JSON object, which proceeds to the validation POST. -/
inductive JsonOutcome where
  | decodeError
  | nonDict
  | dict
deriving DecidableEq, Repr, Inhabited

/-- What `_validate_events_to_send` does with one event. -/
inductive Ga4EventOutcome where
  | abort
  | rejectedLocal (code : ErrorNameIDMap)
  | rejected (code : ErrorNameIDMap) (logged : Option (Val × Val × String))
  | accepted
deriving DecidableEq, Repr

/-- The body of the per-event loop of `_validate_events_to_send`
(`ga4_hook.py` lines 162-208), given the validation-endpoint response
`resp` this event would receive: a missing `id`/`payload` key (`KeyError`)
or an undecodable payload string (`JSONDecodeError`) is rejected with the
invalid-JSON code without any HTTP call (`rejectedLocal`); `json.loads`
applied to a non-string payload raises an uncaught `TypeError` (`abort`),
and so does the `validationBehavior` item assignment on line 173 when the
payload string decoded to non-dict JSON, that assignment being outside the
try block (`abort`); otherwise the decoded dict is POSTed to the
validation URL and classified: connection error or status other than 200 →
retriable HTTP error code; a 200 status with no validation messages →
`accepted`; a 200 status with messages → the first message is looked up in
`_ERROR_TYPES` and on a miss the generic invalid-values code is used and a
diagnostic line with the raw `row_id`, `fieldPath` and `description` is
logged. -/
def ga4ValidateOne (decodes : String → JsonOutcome) (e : Event) (resp : GaValidationResp) :
    Ga4EventOutcome :=
  match getField e "id", getField e "payload" with
  | some rowId, some pv =>
    match pv with
    | .str s =>
      match decodes s with
      | .decodeError => .rejectedLocal .GA4_HOOK_ERROR_INVALID_JSON_STRUCTURE
      | .nonDict => .abort
      | .dict =>
        match resp with
        | .connError => .rejected .RETRIABLE_GA4_HOOK_ERROR_HTTP_ERROR Option.none
        | .resp st msgs =>
          if st != 200 then .rejected .RETRIABLE_GA4_HOOK_ERROR_HTTP_ERROR Option.none
          else
            match msgs with
            | [] => .accepted
            | (fp, desc) :: _ =>
              match findErrorType fp desc with
              | some p => .rejected p.2 Option.none
              | Option.none =>
                .rejected .GA4_HOOK_ERROR_INVALID_VALUES (some (rowId, fp, desc))
    | _ => .abort
  | _, _ => .rejectedLocal .GA4_HOOK_ERROR_INVALID_JSON_STRUCTURE

/-- Did the per-event body reach the `requests.post` call (and hence consume
one validation-endpoint response)? -/
def Ga4EventOutcome.madeCall : Ga4EventOutcome → Bool
  | .abort => false
  | .rejectedLocal _ => false
  | .rejected _ _ => true
  | .accepted => true

/-- Result of `_validate_events_to_send`: index-event pairs for the valid
events, index-code pairs for the invalid ones, and the diagnostic log lines
emitted for unmatched validation messages. -/
structure Ga4Validated where
  valid : List (Nat × Event)
  invalid : List (Nat × ErrorNameIDMap)
  logs : List (Val × Val × String)
deriving DecidableEq, Repr, Inhabited

/-- The `enumerate` loop of `_validate_events_to_send`, with `i` the event
index and `k` the number of validation-endpoint calls made so far (`post k`
is the response to the `k`-th call). -/
def ga4ValidateAux (decodes : String → JsonOutcome) (post : Nat → GaValidationResp) :
    Nat → Nat → List Event → Except PyErr Ga4Validated
  | _, _, [] => .ok ⟨[], [], []⟩
  | i, k, e :: es =>
    match ga4ValidateOne decodes e (post k) with
    | .abort => .error .typeError
    | .rejectedLocal c =>
      match ga4ValidateAux decodes post (i + 1) k es with
      | .error er => .error er
      | .ok r => .ok ⟨r.valid, (i, c) :: r.invalid, r.logs⟩
    | .rejected c lg =>
      match ga4ValidateAux decodes post (i + 1) (k + 1) es with
      | .error er => .error er
      | .ok r => .ok ⟨r.valid, (i, c) :: r.invalid, lg.toList ++ r.logs⟩
    | .accepted =>
      match ga4ValidateAux decodes post (i + 1) (k + 1) es with
      | .error er => .error er
      | .ok r => .ok ⟨(i, e) :: r.valid, r.invalid, r.logs⟩

/-- Function `_validate_events_to_send` of `ga4_hook.py`. -/
def validateEventsToSend (decodes : String → JsonOutcome) (post : Nat → GaValidationResp)
    (events : List Event) : Except PyErr Ga4Validated :=
  ga4ValidateAux decodes post 0 0 events

/-- A response of the GA4 collect endpoint as `_send_payload` inspects it:
a connection error or a bare HTTP status code. -/
inductive GaPostResp where
  | connError
  | status (code : Nat)
deriving DecidableEq, Repr, Inhabited

/-- Function `_send_payload` of `ga4_hook.py` (with `dry_run = False`): a connection
error or a status outside [200, 300) raises
`DataOutConnectorSendUnsuccessfulError` with the retriable HTTP error code;
`some c` is that raised error, `none` is a normal return. -/
def sendPayloadRaises : GaPostResp → Option ErrorNameIDMap
  | .connError => some .RETRIABLE_GA_HOOK_ERROR_HTTP_ERROR
  | .status c =>
    if c < 200 || 300 ≤ c then some .RETRIABLE_GA_HOOK_ERROR_HTTP_ERROR
    else Option.none

/-- The sending loop of `send_events` (`ga4_hook.py` lines 256-263): each
valid event's payload is posted (`send k` is the response to the `k`-th
collect call); a raised send error is recorded as an `(index, code)`
failure.  Returns delivered indices and failures. -/
def ga4SendAux (send : Nat → GaPostResp) :
    Nat → List (Nat × Event) → List Nat × List (Nat × ErrorNameIDMap)
  | _, [] => ([], [])
  | k, (i, _) :: rest =>
    let r := ga4SendAux send (k + 1) rest
    match sendPayloadRaises (send k) with
    | Option.none => (i :: r.1, r.2)
    | some c => (r.1, (i, c) :: r.2)

/-- The observable outcome of `send_events` of the GA4 hook: the updated
blob, the indices of the delivered events, and the diagnostic log lines. -/
structure Ga4Outcome where
  blob : Blob
  delivered : List Nat
  logs : List (Val × Val × String)
deriving DecidableEq, Repr, Inhabited

/-- Function `send_events` of `ga4_hook.py`: remote validation, per-event dispatch,
then appending every accumulated `(index, code)` failure to the blob as
`(index + position, events[index], code.value)`. -/
def sendEventsGA4 (decodes : String → JsonOutcome) (post : Nat → GaValidationResp)
    (send : Nat → GaPostResp) (blb : Blob) : Except PyErr Ga4Outcome :=
  match validateEventsToSend decodes post blb.events with
  | .error er => .error er
  | .ok v =>
    let sres := ga4SendAux send 0 v.valid
    let allInvalid := v.invalid ++ sres.2
    let blb2 := allInvalid.foldl
      (fun b p =>
        b.append_failed_event (p.1 + b.position) ((b.events.getD p.1 [])) p.2.value)
      blb
    .ok ⟨blb2, sres.1, v.logs⟩

/-- Modelled from the spec: classification of a named per-operation dispatch
failure (spec §4.3a) as retriable or terminal.  The dispatch/retry machinery
lives in the repository's `hooks/ads_hook.py`, which is not among the
sources; §4.3 and §4.4 of the spec describe it. -/
inductive RetryClass where
  | retriable
  | terminal
deriving DecidableEq, Repr

/-- Modelled from the spec: one entry of a partial-failure response — the
failing record (by its index within the delivery call), its retriable or
terminal classification, and its error code. -/
structure BatchFailure where
  idx : Nat
  cls : RetryClass
  code : ErrorNameIDMap
deriving DecidableEq, Repr

/-- Modelled from the spec: the Dispatcher (spec §4.3a).  Given the attempt
number and the records sent on that attempt, it returns the partial-failure
list naming the failed records; every record not named succeeded on that
attempt. -/
abbrev Dispatcher := Nat → List (Nat × StoreSalesTransaction) → List BatchFailure

/-- Modelled from the spec: the outcome of the Retry Controller for one
original batch — succeeded indices, final `(index, code)` failures, and the
record sets handed to the Dispatcher, one per attempt in attempt order. -/
structure ResolveResult where
  succeeded : List Nat
  failures : List (Nat × ErrorNameIDMap)
  trace : List (List (Nat × StoreSalesTransaction))
deriving DecidableEq, Repr

/-- Modelled from the spec: the fixed attempt bound of the Retry Controller
(spec §4.4, "5 total attempts observed in practice", confirmed by the
`mutate.call_count == 5` assertion of `ads_ssd_hook_test.py`). -/
def MAX_ATTEMPTS : Nat := 5

/-- Modelled from the spec: one state-machine pass of the Retry Controller
(spec §4.4) for the current retry set `cur` on attempt number `attempt`
with `fuel` attempts (including this one) still allowed.  Unnamed records
succeed and are recorded immediately; terminal failures are recorded
immediately; if any retriable failures remain and attempts are left, only
the retriable-failed records are re-dispatched, otherwise the remaining
retriable failures become final failures carrying their last-seen code. -/
def resolveGo (d : Dispatcher) : Nat → Nat → List (Nat × StoreSalesTransaction) → ResolveResult
  | _, 0, _ => ⟨[], [], []⟩
  | attempt, fuel + 1, cur =>
    let errs := d attempt cur
    let failedIds := errs.map (·.idx)
    let succ := (cur.map Prod.fst).filter (fun i => !failedIds.contains i)
    let terminalFailures :=
      (errs.filter (fun e => e.cls == .terminal)).map (fun e => (e.idx, e.code))
    let retriables := errs.filter (fun e => e.cls == .retriable)
    if retriables.isEmpty || fuel == 0 then
      ⟨succ, terminalFailures ++ retriables.map (fun e => (e.idx, e.code)), [cur]⟩
    else
      let retryIds := retriables.map (·.idx)
      let next := cur.filter (fun p => retryIds.contains p.1)
      let rest := resolveGo d (attempt + 1) fuel next
      ⟨succ ++ rest.succeeded, terminalFailures ++ rest.failures, cur :: rest.trace⟩

/-- Modelled from the spec: the Retry Controller contract
`resolve(batch)` (spec §4.4), dispatching a batch with attempt numbers
starting at 1 and at most `MAX_ATTEMPTS` total dispatch attempts. -/
def resolve (d : Dispatcher) (batch : List (Nat × StoreSalesTransaction)) : ResolveResult :=
  resolveGo d 1 MAX_ATTEMPTS batch

/-! Facts about `_validate_events_to_send` and the GA4 sending loop. -/

/-- Does the per-event body of `_validate_events_to_send` raise an uncaught
`TypeError`?  Exactly when both `id` and `payload` keys are present and the
payload value either is not a string (`json.loads` raises `TypeError`) or
is a string that decodes to non-dict JSON (the `validationBehavior` item
assignment on line 173 raises `TypeError`). -/
def ga4Aborts (decodes : String → JsonOutcome) (e : Event) : Bool :=
  match getField e "id", getField e "payload" with
  | some _, some pv =>
    match pv with
    | .str s => decodes s == .nonDict
    | _ => true
  | _, _ => false

/-! Concrete fixtures used by the witnesses (mirroring the repository's own
test data). -/

/-- A well-formed SHA-256 digest string (64 hex characters). -/
def sha64 : String := String.mk (List.replicate 64 'a')

/-- A fully valid store-sales event, mirroring `_event_test_transaction` of
`ads_ssd_hook_test.py`. -/
def goodEvent : Event :=
  [("email", .str sha64),
   ("transactionTime", .str "20191030 122301 Asia/Calcutta"),
   ("microAmount", .str "50000000"),
   ("currencyCode", .str "EUR"),
   ("conversionName", .str "conversionName")]

/-- An event missing every mandatory transaction field. -/
def missingMandEvent : Event := [("email", .str sha64)]

/-- A dispatch oracle that always succeeds. -/
def dOk : Nat → List StoreSalesTransaction → Option ErrorNameIDMap := fun _ _ => Option.none

/-- A dispatch oracle whose every call raises with the authentication
failure code. -/
def dAuth : Nat → List StoreSalesTransaction → Option ErrorNameIDMap :=
  fun _ _ => some .ADS_HOOK_ERROR_AUTHENTICATION_FAILED

/-- First value of a successful computation (fixtures only ever use it on
successful runs). -/
def exOkD {ε α : Type} [Inhabited α] : Except ε α → α
  | .ok a => a
  | .error _ => default

/-- A minimal GA4 event with an `id` and a string payload. -/
def gaEvent : Event := [("id", .int 1), ("payload", .str "p")]

/-- A JSON-decoding oracle under which every payload string parses to a
JSON object. -/
def decodesTrue : String → JsonOutcome := fun _ => .dict

/-- A JSON-decoding oracle under which every payload string parses to a
non-object JSON value (e.g. the payload string is `3`). -/
def decodesNonDict : String → JsonOutcome := fun _ => .nonDict

/-- A GA4 event whose payload string will decode to non-dict JSON. -/
def gaBadPayloadEvent : Event := [("id", .int 1), ("payload", .str "3")]

def c3GaAbortBlob : Blob := ⟨[gaBadPayloadEvent], 0, []⟩

/-- A GA4 validation endpoint that accepts everything. -/
def postOk : Nat → GaValidationResp := fun _ => .resp 200 []

/-- A GA4 collect endpoint that accepts everything. -/
def sendOk : Nat → GaPostResp := fun _ => .status 200

def c1Blob : Blob := ⟨[goodEvent, missingMandEvent], 7, []⟩

def c1Out : SsdOutcome := exOkD (sendEventsSSD dOk c1Blob)

def c1GaBlob : Blob := ⟨[gaEvent], 3, []⟩

def c1GaOut : Ga4Outcome := exOkD (sendEventsGA4 decodesTrue postOk sendOk c1GaBlob)

def c7Blob : Blob := ⟨[missingMandEvent], 5, []⟩

def c10Event : Event :=
  [("firstName", .str sha64), ("lastName", .str sha64), ("city", .str "Paris"),
   ("transactionTime", .str "20191030 122301 Asia/Calcutta"),
   ("microAmount", .str "1"), ("currencyCode", .str "EUR"),
   ("conversionName", .str "n")]

def c10Out : StoreSalesTransaction := exOkD (formatEvent c10Event)

def c8Time : String := "20191030 122301 Asia/Calcutta !!"

def c8Event : Event :=
  [("email", .str sha64),
   ("transactionTime", .str c8Time),
   ("microAmount", .str "50000000"),
   ("currencyCode", .str "EUR"),
   ("conversionName", .str "conversionName")]

def c3Event : Event :=
  [("email", .str sha64),
   ("transactionTime", .str "20191030 122301 Asia/Calcutta"),
   ("microAmount", .int 50000000),
   ("currencyCode", .str "EUR"),
   ("conversionName", .str "conversionName")]

def c3Blob : Blob := ⟨[c3Event], 0, []⟩

def c3WBlob : Blob := ⟨[goodEvent, missingMandEvent], 1, []⟩

def c3GaBlob : Blob := ⟨[gaEvent], 0, []⟩

/-- Decidable equality for `Except`, used to evaluate the embedded
`send_events` on concrete fixtures inside proofs. -/
instance {ε α : Type} [DecidableEq ε] [DecidableEq α] : DecidableEq (Except ε α) := fun x y =>
  match x, y with
  | .error a, .error b =>
    if h : a = b then isTrue (by rw [h]) else isFalse (fun hc => h (by injection hc))
  | .ok a, .ok b =>
    if h : a = b then isTrue (by rw [h]) else isFalse (fun hc => h (by injection hc))
  | .error _, .ok _ => isFalse (fun hc => Except.noConfusion hc)
  | .ok _, .error _ => isFalse (fun hc => Except.noConfusion hc)

def c2Blob : Blob := ⟨[goodEvent, missingMandEvent], 0, []⟩

def c2WBlob : Blob := ⟨[missingMandEvent, goodEvent], 4, []⟩

def c5Blob : Blob := ⟨[gaEvent], 0, []⟩

/-- The destination record produced for `goodEvent`. -/
def goodPayload : StoreSalesTransaction := exOkD (formatEvent goodEvent)

def c6Blob : Blob := ⟨List.replicate 1001 goodEvent, 0, []⟩

def c6WBlob : Blob := ⟨[goodEvent], 9, []⟩

/-- Modelled from the spec: a Dispatcher that, on every attempt, reports
exactly the record `r` as a retriable failure, with an attempt-dependent
error code — the "remains transiently failing on every attempt" scenario of
spec §4.4 and of `test_retraible_error_occurs_and_retry_failed`. -/
def persistRetriable (r : Nat) (codes : Nat → ErrorNameIDMap) : Dispatcher :=
  fun n cur =>
    if (cur.map Prod.fst).contains r then [⟨r, .retriable, codes n⟩] else []

def c4Codes : Nat → ErrorNameIDMap := fun _ => .RETRIABLE_GA_HOOK_ERROR_HTTP_ERROR

def c4Batch : List (Nat × StoreSalesTransaction) := [(0, goodPayload), (1, goodPayload)]

/-! Facts about `_format_event`. -/

theorem formatEvent_missing_mandatory (e : Event)
    (h : mandatoryFields.all (fun f => hasField e f) = false) :
    formatEvent e = .error (.value .ADS_SSD_HOOK_ERROR_MISSING_MANDATORY_FIELDS) := by
  simp [formatEvent, h]

/-- A value read out of an all-strings event is a string. -/
theorem getField_isStr {e : Event} (h : ∀ p ∈ e, p.2.isStr = true)
    {f : String} {v : Val} (hg : getField e f = some v) : v.isStr = true := by
  unfold getField at hg
  cases hfind : e.find? (fun p => p.1 == f) with
  | none => simp [hfind] at hg
  | some p =>
    have hmem := List.mem_of_find?_eq_some hfind
    have := h p hmem
    simp [hfind] at hg
    rw [← hg]
    exact this

theorem validateSha256Pattern_str_no_typeError {s : String} :
    validateSha256Pattern (.str s) ≠ .error .typeError := by
  by_cases hm : matchesSha256 s <;> simp [validateSha256Pattern, hm]

theorem collectIdentifiersAux_no_typeError {e : Event}
    (h : ∀ p ∈ e, p.2.isStr = true) :
    ∀ l : List (String × String), collectIdentifiersAux e l ≠ .error .typeError := by
  intro l
  induction l with
  | nil => simp [collectIdentifiersAux]
  | cons q rest ih =>
    simp only [collectIdentifiersAux]
    split
    · exact ih
    · next v hg =>
      have hv : v.isStr = true := getField_isStr h hg
      split
      · split
        · next er hval =>
          intro hcon
          injection hcon with h1
          subst h1
          cases v with
          | str s => exact validateSha256Pattern_str_no_typeError hval
          | int n => simp [Val.isStr] at hv
          | none => simp [Val.isStr] at hv
        · split
          · next er hrec =>
            intro hcon
            injection hcon with h1
            subst h1
            exact ih hrec
          · simp
      · split
        · next er hrec =>
          intro hcon
          injection hcon with h1
          subst h1
          exact ih hrec
        · simp

theorem checkTransactionTime_str_no_typeError {s : String} :
    checkTransactionTime (.str s) ≠ .error .typeError := by
  by_cases hm : reMatchDateTime s <;> simp [checkTransactionTime, hm]

theorem checkMicroAmount_str_no_typeError {s : String} :
    checkMicroAmount (.str s) ≠ .error .typeError := by
  by_cases hm : pyIsDigit s <;> simp [checkMicroAmount, hm]

theorem checkConversionName_str_no_typeError {s : String} :
    checkConversionName (.str s) ≠ .error .typeError := by
  unfold checkConversionName
  dsimp only
  split
  · simp
  · split <;> simp

/-- A string-valued field extracted with the `getD .none` convention. -/
theorem getField_getD_isStr {e : Event} (h : ∀ p ∈ e, p.2.isStr = true)
    {f : String} (hf : hasField e f = true) :
    ∃ s, (getField e f).getD .none = Val.str s := by
  unfold hasField at hf
  cases hg : getField e f with
  | none => simp [hg] at hf
  | some v =>
    have hv := getField_isStr h hg
    cases v with
    | str s => exact ⟨s, by simp [hg]⟩
    | int n => simp [Val.isStr] at hv
    | none => simp [Val.isStr] at hv

/-- On an event whose field values are all strings, `_format_event` never
raises an uncaught `TypeError`. -/
theorem formatEvent_no_typeError {e : Event} (h : ∀ p ∈ e, p.2.isStr = true) :
    formatEvent e ≠ .error .typeError := by
  unfold formatEvent
  split
  · simp
  · next hmand =>
    have hall : mandatoryFields.all (fun f => hasField e f) = true := by
      revert hmand
      cases mandatoryFields.all (fun f => hasField e f) <;> simp
    have htt : hasField e "transactionTime" = true := by
      simp [mandatoryFields] at hall
      exact hall.1
    have hma : hasField e "microAmount" = true := by
      simp [mandatoryFields] at hall
      exact hall.2.1
    have hcn : hasField e "conversionName" = true := by
      simp [mandatoryFields] at hall
      exact hall.2.2.2
    split
    · next er hcol =>
      intro hcon
      injection hcon with h1
      subst h1
      exact collectIdentifiersAux_no_typeError h _ hcol
    · next ids hcol =>
      split
      · simp
      · dsimp only
        split
        · next er hct =>
          intro hcon
          injection hcon with h1
          subst h1
          obtain ⟨s, hs⟩ := getField_getD_isStr h htt
          rw [hs] at hct
          exact checkTransactionTime_str_no_typeError hct
        · split
          · next er hcm =>
            intro hcon
            injection hcon with h1
            subst h1
            obtain ⟨s, hs⟩ := getField_getD_isStr h hma
            rw [hs] at hcm
            exact checkMicroAmount_str_no_typeError hcm
          · split
            · simp
            · split
              · next er hcc =>
                intro hcon
                injection hcon with h1
                subst h1
                obtain ⟨s, hs⟩ := getField_getD_isStr h hcn
                rw [hs] at hcc
                exact checkConversionName_str_no_typeError hcc
              · simp

/-- The identifier loop keeps, in table order, one `(type, value)` pair per
present identifier field, with the value taken unchanged from the event. -/
theorem collectIdentifiersAux_ok {e : Event} :
    ∀ {l : List (String × String)} {ids : List (String × Val)},
      collectIdentifiersAux e l = .ok ids →
      ids = l.filterMap (fun q => (getField e q.1).map (fun v => (q.2, v))) := by
  intro l
  induction l with
  | nil =>
    intro ids h
    simp [collectIdentifiersAux] at h
    simp [h.symm]
  | cons q rest ih =>
    intro ids h
    simp only [collectIdentifiersAux] at h
    rw [List.filterMap_cons]
    cases hg : getField e q.1 with
    | none =>
      rw [hg] at h
      simp only [Option.map_none']
      exact ih h
    | some v =>
      rw [hg] at h
      dsimp only at h
      simp only [Option.map_some']
      by_cases hh : hashedTypes.contains q.2
      · rw [if_pos hh] at h
        cases hval : validateSha256Pattern v with
        | error er => rw [hval] at h; cases h
        | ok u =>
          rw [hval] at h
          cases hrec : collectIdentifiersAux e rest with
          | error er => rw [hrec] at h; cases h
          | ok tl =>
            rw [hrec] at h
            injection h with h1
            rw [← h1, ih hrec]
      · rw [if_neg hh] at h
        cases hrec : collectIdentifiersAux e rest with
        | error er => rw [hrec] at h; cases h
        | ok tl =>
          rw [hrec] at h
          injection h with h1
          rw [← h1, ih hrec]

/-- Inversion of a successful `_format_event`: every stage passed, and the
produced destination record carries the identifier list and the original
field values unchanged. -/
theorem formatEvent_ok_inv {e : Event} {t : StoreSalesTransaction}
    (h : formatEvent e = .ok t) :
    mandatoryFields.all (fun f => hasField e f) = true ∧
    ∃ ids, collectIdentifiers e = .ok ids ∧ ids.isEmpty = false ∧
      t.userIdentifiers = ids ∧
      t.transactionTime = (getField e "transactionTime").getD .none ∧
      t.microAmount = (getField e "microAmount").getD .none ∧
      t.currencyCode = (getField e "currencyCode").getD .none ∧
      t.conversionName = (getField e "conversionName").getD .none := by
  unfold formatEvent at h
  split at h
  · cases h
  · next hmand =>
    refine ⟨by revert hmand; cases mandatoryFields.all (fun f => hasField e f) <;> simp, ?_⟩
    split at h
    · cases h
    · next ids hcol =>
      refine ⟨ids, hcol, ?_⟩
      split at h
      · cases h
      · next hne =>
        refine ⟨by revert hne; cases ids.isEmpty <;> simp, ?_⟩
        dsimp only at h
        split at h
        · cases h
        · split at h
          · cases h
          · split at h
            · cases h
            · split at h
              · cases h
              · injection h with h1
                rw [← h1]
                exact ⟨rfl, rfl, rfl, rfl, rfl⟩

theorem checkMicroAmount_ne_time (v : Val) :
    checkMicroAmount v ≠ .error (.value .ADS_SSD_HOOK_ERROR_INVALID_FORMAT_OF_CONVERSION_TIME) := by
  unfold checkMicroAmount
  cases v with
  | str s => by_cases hm : pyIsDigit s <;> simp [hm]
  | int n => simp
  | none => simp

theorem checkConversionName_ne_time (v : Val) :
    checkConversionName v ≠ .error (.value .ADS_SSD_HOOK_ERROR_INVALID_FORMAT_OF_CONVERSION_TIME) := by
  unfold checkConversionName
  dsimp only
  split
  · simp
  · split
    · split <;> simp
    · simp

/-- With the mandatory fields present, identifiers collected and non-empty,
and a string `transactionTime` that fails the `re.match` prefix test,
`_format_event` rejects with the invalid-conversion-time code. -/
theorem formatEvent_time_reject {e : Event} {ids : List (String × Val)} {s : String}
    (hmand : mandatoryFields.all (fun f => hasField e f) = true)
    (hcol : collectIdentifiers e = .ok ids) (hne : ids.isEmpty = false)
    (htt : (getField e "transactionTime").getD .none = Val.str s)
    (hbad : reMatchDateTime s = false) :
    formatEvent e =
      .error (.value .ADS_SSD_HOOK_ERROR_INVALID_FORMAT_OF_CONVERSION_TIME) := by
  unfold formatEvent
  rw [hmand, hcol]
  simp only [Bool.not_true, if_false, hne, Bool.false_eq_true]
  rw [htt]
  simp [checkTransactionTime, hbad]

/-- With the same stage hypotheses and a string `transactionTime` that
passes the `re.match` prefix test, `_format_event` never reports the
invalid-conversion-time code, and a successful run carries the string into
the destination record unchanged. -/
theorem formatEvent_time_pass {e : Event} {ids : List (String × Val)} {s : String}
    (hmand : mandatoryFields.all (fun f => hasField e f) = true)
    (hcol : collectIdentifiers e = .ok ids) (hne : ids.isEmpty = false)
    (htt : (getField e "transactionTime").getD .none = Val.str s)
    (hgood : reMatchDateTime s = true) :
    formatEvent e ≠
      .error (.value .ADS_SSD_HOOK_ERROR_INVALID_FORMAT_OF_CONVERSION_TIME) := by
  unfold formatEvent
  rw [hmand, hcol]
  simp only [Bool.not_true, if_false, hne, Bool.false_eq_true]
  rw [htt]
  simp only [checkTransactionTime, hgood, if_true]
  split
  · next er hcm =>
    intro hcon
    injection hcon with h1
    exact checkMicroAmount_ne_time _ (h1 ▸ hcm)
  · split
    · simp
    · split
      · next er hcc =>
        intro hcon
        injection hcon with h1
        exact checkConversionName_ne_time _ (h1 ▸ hcc)
      · simp

/-! Facts about `_validate_and_prepare_events_to_send`. -/

/-- The validation loop catches every `DataOutConnectorValueError`; the only
way it aborts is an uncaught `TypeError` from `_format_event`. -/
theorem validateAux_error {es : List Event} :
    ∀ {i : Nat} {er : PyErr}, validateAndPrepareAux i es = .error er → er = .typeError := by
  induction es with
  | nil => intro i er h; cases h
  | cons e rest ih =>
    intro i er h
    simp only [validateAndPrepareAux] at h
    split at h
    · cases h; rfl
    · split at h
      · cases h; exact ih (by assumption)
      · cases h
    · split at h
      · cases h; exact ih (by assumption)
      · cases h

/-- If no event makes `_format_event` raise an uncaught `TypeError`, the
validation loop returns normally. -/
theorem validateAux_ok_of {es : List Event}
    (hs : ∀ e ∈ es, formatEvent e ≠ .error .typeError) :
    ∀ i : Nat, ∃ r, validateAndPrepareAux i es = .ok r := by
  induction es with
  | nil => intro i; exact ⟨([], []), rfl⟩
  | cons e rest ih =>
    intro i
    obtain ⟨⟨v, inv⟩, hr⟩ := ih (fun e he => hs e (List.mem_cons_of_mem _ he)) (i + 1)
    simp only [validateAndPrepareAux]
    cases hf : formatEvent e with
    | error er =>
      cases er with
      | value c => exact ⟨(v, (i, c) :: inv), by rw [hr]⟩
      | typeError => exact absurd hf (hs e (List.mem_cons_self e rest))
    | ok p => exact ⟨((i, p) :: v, inv), by rw [hr]⟩

/-- Partition invariant of the validation loop: the valid and invalid
indices together are a permutation of the input's index range, each side is
strictly increasing, and every index is at least the starting index. -/
theorem validateAux_spec {es : List Event} :
    ∀ {i : Nat} {v : List (Nat × StoreSalesTransaction)} {inv : List (Nat × ErrorNameIDMap)},
      validateAndPrepareAux i es = .ok (v, inv) →
      List.Perm (v.map Prod.fst ++ inv.map Prod.fst) (List.range' i es.length) ∧
      (v.map Prod.fst).Pairwise (· < ·) ∧
      (inv.map Prod.fst).Pairwise (· < ·) ∧
      (∀ j ∈ v.map Prod.fst, i ≤ j) ∧
      (∀ j ∈ inv.map Prod.fst, i ≤ j) := by
  induction es with
  | nil =>
    intro i v inv h
    simp only [validateAndPrepareAux] at h
    injection h with h1
    injection h1 with hv hinv
    subst hv; subst hinv
    simp
  | cons e rest ih =>
    intro i v inv h
    simp only [validateAndPrepareAux] at h
    rw [List.length_cons, List.range'_succ i rest.length 1]
    split at h
    · cases h
    · next c hf =>
      cases hrec : validateAndPrepareAux (i + 1) rest with
      | error er => rw [hrec] at h; cases h
      | ok r =>
        rw [hrec] at h
        obtain ⟨v', inv'⟩ := r
        injection h with h1
        injection h1 with hv hinv
        subst hv; subst hinv
        obtain ⟨hperm, hpv, hpi, hbv, hbi⟩ := ih hrec
        refine ⟨?_, hpv, ?_, ?_, ?_⟩
        · simp only [List.map_cons]
          exact (List.perm_middle).trans (hperm.cons i)
        · simp only [List.map_cons]
          exact List.Pairwise.cons (fun j hj => Nat.lt_of_succ_le (hbi j hj)) hpi
        · intro j hj; exact Nat.le_of_succ_le (hbv j hj)
        · intro j hj
          simp only [List.map_cons, List.mem_cons] at hj
          cases hj with
          | inl hj => exact hj ▸ Nat.le_refl i
          | inr hj => exact Nat.le_of_succ_le (hbi j hj)
    · next p hf =>
      cases hrec : validateAndPrepareAux (i + 1) rest with
      | error er => rw [hrec] at h; cases h
      | ok r =>
        rw [hrec] at h
        obtain ⟨v', inv'⟩ := r
        injection h with h1
        injection h1 with hv hinv
        subst hv; subst hinv
        obtain ⟨hperm, hpv, hpi, hbv, hbi⟩ := ih hrec
        refine ⟨?_, ?_, hpi, ?_, ?_⟩
        · simp only [List.map_cons, List.cons_append]
          exact hperm.cons i
        · simp only [List.map_cons]
          exact List.Pairwise.cons (fun j hj => Nat.lt_of_succ_le (hbv j hj)) hpv
        · intro j hj
          simp only [List.map_cons, List.mem_cons] at hj
          cases hj with
          | inl hj => exact hj ▸ Nat.le_refl i
          | inr hj => exact Nat.le_of_succ_le (hbv j hj)
        · intro j hj; exact Nat.le_of_succ_le (hbi j hj)

/-! Facts about `_batch_generator`. -/

theorem batchGenerator_eq_nil : batchGenerator ([] : List α) = [] := by
  simp [batchGenerator, DEFAULT_BATCH_SIZE]

theorem batchGenerator_eq_cons {l : List α} (h : l.isEmpty = false) :
    batchGenerator l =
      l.take DEFAULT_BATCH_SIZE :: batchGenerator (l.drop DEFAULT_BATCH_SIZE) := by
  have hlen : 1 ≤ l.length := by
    cases l with
    | nil => cases h
    | cons a as => simp
  have hcount :
      (l.length + (DEFAULT_BATCH_SIZE - 1)) / DEFAULT_BATCH_SIZE =
        ((l.drop DEFAULT_BATCH_SIZE).length + (DEFAULT_BATCH_SIZE - 1)) /
          DEFAULT_BATCH_SIZE + 1 := by
    simp only [List.length_drop, DEFAULT_BATCH_SIZE]
    simp only [DEFAULT_BATCH_SIZE] at hlen
    omega
  unfold batchGenerator
  rw [hcount, List.range_succ_eq_map, List.map_cons, List.map_map]
  congr 1
  apply List.map_congr_left
  intro i _
  simp only [Function.comp_apply, List.drop_drop]
  congr 2
  simp only [DEFAULT_BATCH_SIZE]
  omega

/-- Induction along the chunking structure of `_batch_generator`. -/
theorem batchGenerator_ind {α : Type _} (P : List α → Prop) (hnil : P [])
    (hstep : ∀ l : List α, l ≠ [] → P (l.drop DEFAULT_BATCH_SIZE) → P l) :
    ∀ l : List α, P l := by
  intro l
  generalize hn : l.length = n
  induction n using Nat.strong_induction_on generalizing l with
  | _ n ih =>
    cases l with
    | nil => exact hnil
    | cons a as =>
      refine hstep (a :: as) (by simp) ?_
      refine ih ((a :: as).drop DEFAULT_BATCH_SIZE).length ?_ _ rfl
      subst hn
      simp only [List.length_drop, List.length_cons, DEFAULT_BATCH_SIZE]
      omega

/-- Concatenating the generated batches, in order, gives back the input. -/
theorem batchGenerator_join (l : List α) : (batchGenerator l).flatten = l := by
  induction l using batchGenerator_ind with
  | hnil => rw [batchGenerator_eq_nil]; rfl
  | hstep l hl ih =>
    have h' : l.isEmpty = false := by
      cases l with
      | nil => exact absurd rfl hl
      | cons a as => rfl
    rw [batchGenerator_eq_cons h']
    simp only [List.flatten_cons, ih]
    exact List.take_append_drop _ l

/-- Every generated batch is non-empty and at most the batch size. -/
theorem batchGenerator_mem {l : List α} {b : List α} (hb : b ∈ batchGenerator l) :
    b ≠ [] ∧ b.length ≤ DEFAULT_BATCH_SIZE := by
  induction l using batchGenerator_ind with
  | hnil =>
    rw [batchGenerator_eq_nil] at hb
    cases hb
  | hstep l hl ih =>
    have h' : l.isEmpty = false := by
      cases l with
      | nil => exact absurd rfl hl
      | cons a as => rfl
    rw [batchGenerator_eq_cons h'] at hb
    cases hb with
    | head =>
      constructor
      · intro hcon
        rw [List.take_eq_nil_iff] at hcon
        cases hcon with
        | inl h0 => simp [DEFAULT_BATCH_SIZE] at h0
        | inr h0 => exact hl h0
      · exact List.length_take_le _ _
    | tail _ hmem => exact ih hmem

/-- Every batch except possibly the last has exactly the batch size. -/
theorem batchGenerator_dropLast {l : List α} {b : List α}
    (hb : b ∈ (batchGenerator l).dropLast) : b.length = DEFAULT_BATCH_SIZE := by
  induction l using batchGenerator_ind with
  | hnil =>
    rw [batchGenerator_eq_nil] at hb
    cases hb
  | hstep l hl ih =>
    have h' : l.isEmpty = false := by
      cases l with
      | nil => exact absurd rfl hl
      | cons a as => rfl
    rw [batchGenerator_eq_cons h'] at hb
    by_cases hrest : batchGenerator (l.drop DEFAULT_BATCH_SIZE) = []
    · rw [hrest] at hb
      simp at hb
    · rw [List.dropLast_cons_of_ne_nil hrest] at hb
      cases hb with
      | head =>
        have hlen : DEFAULT_BATCH_SIZE < l.length := by
          by_contra hcon
          push_neg at hcon
          have hd : l.drop DEFAULT_BATCH_SIZE = [] := by
            rw [List.drop_eq_nil_iff]
            exact hcon
          rw [hd, batchGenerator_eq_nil] at hrest
          exact hrest rfl
        exact List.length_take_of_le (Nat.le_of_lt hlen)
      | tail _ hmem => exact ih hmem

/-! Facts about the batch-dispatch loop of the ads hook's `send_events`. -/

/-- Delivered indices and dispatch-failure indices together are a
permutation of all batched indices. -/
theorem dispatchBatches_perm (d : Nat → List StoreSalesTransaction → Option ErrorNameIDMap) :
    ∀ (bs : List (List (Nat × StoreSalesTransaction))) (k : Nat),
      List.Perm
        ((dispatchBatches d k bs).1 ++ ((dispatchBatches d k bs).2.map Prod.fst))
        ((bs.flatten).map Prod.fst) := by
  intro bs
  induction bs with
  | nil => intro k; simp [dispatchBatches]
  | cons b rest ih =>
    intro k
    simp only [dispatchBatches]
    cases hd : d k (b.map Prod.snd) with
    | none =>
      simp only [List.flatten_cons, List.map_append, List.append_assoc]
      exact (ih (k + 1)).append_left (b.map Prod.fst)
    | some c =>
      simp only [List.flatten_cons, List.map_append]
      have hmap : (b.map (fun p => (p.1, c))).map Prod.fst = b.map Prod.fst := by
        rw [List.map_map]
        rfl
      rw [hmap]
      have step1 :
          (dispatchBatches d (k+1) rest).1 ++
              (b.map Prod.fst ++ ((dispatchBatches d (k+1) rest).2.map Prod.fst)) =
            ((dispatchBatches d (k+1) rest).1 ++ b.map Prod.fst) ++
              ((dispatchBatches d (k+1) rest).2.map Prod.fst) := by
        rw [List.append_assoc]
      rw [step1]
      have step2 :
          List.Perm
            (((dispatchBatches d (k+1) rest).1 ++ b.map Prod.fst) ++
              ((dispatchBatches d (k+1) rest).2.map Prod.fst))
            ((b.map Prod.fst ++ (dispatchBatches d (k+1) rest).1) ++
              ((dispatchBatches d (k+1) rest).2.map Prod.fst)) :=
        List.Perm.append_right _ List.perm_append_comm
      refine step2.trans ?_
      rw [List.append_assoc]
      exact (ih (k + 1)).append_left (b.map Prod.fst)

/-- Dispatch-failure indices form a sublist of the batched indices (order
preserved). -/
theorem dispatchBatches_sublist (d : Nat → List StoreSalesTransaction → Option ErrorNameIDMap) :
    ∀ (bs : List (List (Nat × StoreSalesTransaction))) (k : Nat),
      List.Sublist ((dispatchBatches d k bs).2.map Prod.fst) ((bs.flatten).map Prod.fst) := by
  intro bs
  induction bs with
  | nil => intro k; simp [dispatchBatches]
  | cons b rest ih =>
    intro k
    simp only [dispatchBatches]
    cases hd : d k (b.map Prod.snd) with
    | none =>
      simp only [List.flatten_cons, List.map_append]
      exact (ih (k + 1)).trans (List.sublist_append_right _ _)
    | some c =>
      simp only [List.flatten_cons, List.map_append]
      have hmap : (b.map (fun p => (p.1, c))).map Prod.fst = b.map Prod.fst := by
        rw [List.map_map]
        rfl
      rw [hmap]
      exact (List.Sublist.refl (b.map Prod.fst)).append (ih (k + 1))

/-- A batch whose dispatch call raises is recorded whole: each of its
records appears among the failures with the raised error code. -/
theorem dispatchBatches_failed_mem
    (d : Nat → List StoreSalesTransaction → Option ErrorNameIDMap) :
    ∀ (bs : List (List (Nat × StoreSalesTransaction))) (k j : Nat)
      (b : List (Nat × StoreSalesTransaction)) (c : ErrorNameIDMap),
      bs.get? j = some b → d (k + j) (b.map Prod.snd) = some c →
      ∀ p ∈ b, (p.1, c) ∈ (dispatchBatches d k bs).2 := by
  intro bs
  induction bs with
  | nil => intro k j b c hget; cases hget
  | cons b0 rest ih =>
    intro k j b c hget hd p hp
    cases j with
    | zero =>
      injection hget with h1
      subst h1
      simp only [dispatchBatches]
      rw [Nat.add_zero] at hd
      rw [hd]
      simp only [List.mem_append]
      left
      exact List.mem_map_of_mem (fun p => (p.1, c)) hp
    | succ j' =>
      have hrec := ih (k + 1) j' b c (by simpa using hget)
        (by have : k + 1 + j' = k + (j' + 1) := by omega
            rw [this]; exact hd)
        p hp
      simp only [dispatchBatches]
      cases hd0 : d k (b0.map Prod.snd) with
      | none => exact hrec
      | some c0 =>
        simp only [List.mem_append]
        right
        exact hrec

/-- With a dispatcher that always raises the same error, no batch is
delivered and every batched record is recorded as failed with that code. -/
theorem dispatchBatches_const_fail (c : ErrorNameIDMap) :
    ∀ (bs : List (List (Nat × StoreSalesTransaction))) (k : Nat),
      dispatchBatches (fun _ _ => some c) k bs =
        ([], (bs.flatten).map (fun p => (p.1, c))) := by
  intro bs
  induction bs with
  | nil => intro k; simp [dispatchBatches]
  | cons b rest ih =>
    intro k
    simp only [dispatchBatches, ih (k + 1), List.flatten_cons, List.map_append]

/-! Facts about the failure-appending loop at the end of both hooks'
`send_events`. -/

/-- Appending a failure record changes only `failed_events`. -/
theorem append_failed_event_fields (b : Blob) (idx : Nat) (ev : Event) (n : Nat) :
    (b.append_failed_event idx ev n).events = b.events ∧
    (b.append_failed_event idx ev n).position = b.position := by
  exact ⟨rfl, rfl⟩

/-- The final loop of `send_events` appends, in list order, one failure
record `(index + position, events[index], code.value)` per accumulated
`(index, code)` pair. -/
theorem appendFailures_spec :
    ∀ (l : List (Nat × ErrorNameIDMap)) (b : Blob),
      (l.foldl
        (fun bb p =>
          bb.append_failed_event (p.1 + bb.position) ((bb.events.getD p.1 [])) p.2.value)
        b) =
      { b with
          failed_events :=
            b.failed_events ++
              l.map (fun p => (p.1 + b.position, b.events.getD p.1 [], p.2.value)) } := by
  intro l
  induction l with
  | nil =>
    intro b
    simp
  | cons p rest ih =>
    intro b
    rw [List.foldl_cons, ih]
    simp [Blob.append_failed_event]

theorem ga4ValidateOne_abort_iff (decodes : String → JsonOutcome) (e : Event)
    (resp : GaValidationResp) :
    (ga4ValidateOne decodes e resp = .abort) ↔ ga4Aborts decodes e = true := by
  unfold ga4ValidateOne ga4Aborts
  cases hid : getField e "id" with
  | none => simp
  | some rowId =>
    cases hpl : getField e "payload" with
    | none => simp
    | some pv =>
      cases pv with
      | str s =>
        dsimp only
        cases hdec : decodes s with
        | decodeError => simp
        | nonDict => simp
        | dict =>
          dsimp only
          constructor
          · intro h
            exfalso
            cases resp with
            | connError => exact Ga4EventOutcome.noConfusion h
            | resp st msgs =>
              dsimp only at h
              by_cases hst : (st != 200) = true
              · rw [if_pos hst] at h
                exact Ga4EventOutcome.noConfusion h
              · rw [if_neg hst] at h
                cases msgs with
                | nil => exact Ga4EventOutcome.noConfusion h
                | cons m rest =>
                  obtain ⟨fp, desc⟩ := m
                  revert h
                  dsimp only
                  cases findErrorType fp desc <;>
                    (intro h; exact Ga4EventOutcome.noConfusion h)
          · intro h
            simp at h
      | int n => simp
      | none => simp

/-- The GA4 validation loop aborts only with an uncaught `TypeError`. -/
theorem ga4ValidateAux_error (decodes : String → JsonOutcome) (post : Nat → GaValidationResp) :
    ∀ (es : List Event) (i k : Nat) (er : PyErr),
      ga4ValidateAux decodes post i k es = .error er → er = .typeError := by
  intro es
  induction es with
  | nil => intro i k er h; cases h
  | cons e rest ih =>
    intro i k er h
    simp only [ga4ValidateAux] at h
    split at h
    · cases h; rfl
    · split at h
      · cases h; exact ih (i + 1) k er (by assumption)
      · cases h
    · split at h
      · cases h; exact ih (i + 1) (k + 1) er (by assumption)
      · cases h
    · split at h
      · cases h; exact ih (i + 1) (k + 1) er (by assumption)
      · cases h

/-- If no event has a present non-string payload, the GA4 validation loop
returns normally. -/
theorem ga4ValidateAux_ok_of (decodes : String → JsonOutcome) (post : Nat → GaValidationResp)
    {es : List Event} (hs : ∀ e ∈ es, ga4Aborts decodes e = false) :
    ∀ i k : Nat, ∃ r, ga4ValidateAux decodes post i k es = .ok r := by
  induction es with
  | nil => intro i k; exact ⟨⟨[], [], []⟩, rfl⟩
  | cons e rest ih =>
    intro i k
    have hne : ∀ resp, ga4ValidateOne decodes e resp ≠ .abort := by
      intro resp hcon
      rw [ga4ValidateOne_abort_iff] at hcon
      rw [hs e (List.mem_cons_self e rest)] at hcon
      cases hcon
    have ihs : ∀ e' ∈ rest, ga4Aborts decodes e' = false :=
      fun e' he' => hs e' (List.mem_cons_of_mem _ he')
    simp only [ga4ValidateAux]
    cases hone : ga4ValidateOne decodes e (post k) with
    | abort => exact absurd hone (hne (post k))
    | rejectedLocal c =>
      obtain ⟨r, hr⟩ := ih ihs (i + 1) k
      exact ⟨⟨r.valid, (i, c) :: r.invalid, r.logs⟩, by rw [hr]⟩
    | rejected c lg =>
      obtain ⟨r, hr⟩ := ih ihs (i + 1) (k + 1)
      exact ⟨⟨r.valid, (i, c) :: r.invalid, lg.toList ++ r.logs⟩, by rw [hr]⟩
    | accepted =>
      obtain ⟨r, hr⟩ := ih ihs (i + 1) (k + 1)
      exact ⟨⟨(i, e) :: r.valid, r.invalid, r.logs⟩, by rw [hr]⟩

/-- Partition invariant of the GA4 validation loop, as for the ads hook. -/
theorem ga4ValidateAux_spec (decodes : String → JsonOutcome) (post : Nat → GaValidationResp) :
    ∀ (es : List Event) (i k : Nat) (r : Ga4Validated),
      ga4ValidateAux decodes post i k es = .ok r →
      List.Perm (r.valid.map Prod.fst ++ r.invalid.map Prod.fst)
        (List.range' i es.length) ∧
      (r.valid.map Prod.fst).Pairwise (· < ·) ∧
      (r.invalid.map Prod.fst).Pairwise (· < ·) ∧
      (∀ j ∈ r.valid.map Prod.fst, i ≤ j) ∧
      (∀ j ∈ r.invalid.map Prod.fst, i ≤ j) := by
  intro es
  induction es with
  | nil =>
    intro i k r h
    simp only [ga4ValidateAux] at h
    injection h with h1
    subst h1
    simp
  | cons e rest ih =>
    intro i k r h
    simp only [ga4ValidateAux] at h
    rw [List.length_cons, List.range'_succ i rest.length 1]
    split at h
    · cases h
    · next c =>
      cases hrec : ga4ValidateAux decodes post (i + 1) k rest with
      | error er => rw [hrec] at h; cases h
      | ok r' =>
        rw [hrec] at h
        injection h with h1
        subst h1
        obtain ⟨hperm, hpv, hpi, hbv, hbi⟩ := ih (i + 1) k r' hrec
        refine ⟨?_, hpv, ?_, ?_, ?_⟩
        · simp only [List.map_cons]
          exact (List.perm_middle).trans (hperm.cons i)
        · simp only [List.map_cons]
          exact List.Pairwise.cons (fun j hj => Nat.lt_of_succ_le (hbi j hj)) hpi
        · intro j hj; exact Nat.le_of_succ_le (hbv j hj)
        · intro j hj
          simp only [List.map_cons, List.mem_cons] at hj
          cases hj with
          | inl hj => exact hj ▸ Nat.le_refl i
          | inr hj => exact Nat.le_of_succ_le (hbi j hj)
    · next c lg =>
      cases hrec : ga4ValidateAux decodes post (i + 1) (k + 1) rest with
      | error er => rw [hrec] at h; cases h
      | ok r' =>
        rw [hrec] at h
        injection h with h1
        subst h1
        obtain ⟨hperm, hpv, hpi, hbv, hbi⟩ := ih (i + 1) (k + 1) r' hrec
        refine ⟨?_, hpv, ?_, ?_, ?_⟩
        · simp only [List.map_cons]
          exact (List.perm_middle).trans (hperm.cons i)
        · simp only [List.map_cons]
          exact List.Pairwise.cons (fun j hj => Nat.lt_of_succ_le (hbi j hj)) hpi
        · intro j hj; exact Nat.le_of_succ_le (hbv j hj)
        · intro j hj
          simp only [List.map_cons, List.mem_cons] at hj
          cases hj with
          | inl hj => exact hj ▸ Nat.le_refl i
          | inr hj => exact Nat.le_of_succ_le (hbi j hj)
    · cases hrec : ga4ValidateAux decodes post (i + 1) (k + 1) rest with
      | error er => rw [hrec] at h; cases h
      | ok r' =>
        rw [hrec] at h
        injection h with h1
        subst h1
        obtain ⟨hperm, hpv, hpi, hbv, hbi⟩ := ih (i + 1) (k + 1) r' hrec
        refine ⟨?_, ?_, hpi, ?_, ?_⟩
        · simp only [List.map_cons, List.cons_append]
          exact hperm.cons i
        · simp only [List.map_cons]
          exact List.Pairwise.cons (fun j hj => Nat.lt_of_succ_le (hbv j hj)) hpv
        · intro j hj
          simp only [List.map_cons, List.mem_cons] at hj
          cases hj with
          | inl hj => exact hj ▸ Nat.le_refl i
          | inr hj => exact Nat.le_of_succ_le (hbv j hj)
        · intro j hj; exact Nat.le_of_succ_le (hbi j hj)

/-- Delivered and failed indices of the GA4 sending loop are a permutation
of the valid indices. -/
theorem ga4SendAux_perm (send : Nat → GaPostResp) :
    ∀ (l : List (Nat × Event)) (k : Nat),
      List.Perm ((ga4SendAux send k l).1 ++ ((ga4SendAux send k l).2.map Prod.fst))
        (l.map Prod.fst) := by
  intro l
  induction l with
  | nil => intro k; simp [ga4SendAux]
  | cons p rest ih =>
    intro k
    obtain ⟨i, e⟩ := p
    simp only [ga4SendAux, List.map_cons]
    cases hs : sendPayloadRaises (send k) with
    | none =>
      simp only [List.cons_append]
      exact (ih (k + 1)).cons i
    | some c =>
      simp only [List.map_cons]
      exact (List.perm_middle).trans ((ih (k + 1)).cons i)

/-- Failed indices of the GA4 sending loop form a sublist of the valid
indices (order preserved). -/
theorem ga4SendAux_sublist (send : Nat → GaPostResp) :
    ∀ (l : List (Nat × Event)) (k : Nat),
      List.Sublist ((ga4SendAux send k l).2.map Prod.fst) (l.map Prod.fst) := by
  intro l
  induction l with
  | nil => intro k; simp [ga4SendAux]
  | cons p rest ih =>
    intro k
    obtain ⟨i, e⟩ := p
    simp only [ga4SendAux, List.map_cons]
    cases hs : sendPayloadRaises (send k) with
    | none => exact (ih (k + 1)).trans (List.sublist_cons_self i _)
    | some c =>
      simp only [List.map_cons]
      exact (ih (k + 1)).cons₂ i

/-- Inversion of a successful ads `send_events` run. -/
theorem sendEventsSSD_ok_inv {d : Nat → List StoreSalesTransaction → Option ErrorNameIDMap}
    {blb : Blob} {out : SsdOutcome} (h : sendEventsSSD d blb = .ok out) :
    ∃ v inv,
      validateAndPrepareEventsToSend blb.events = .ok (v, inv) ∧
      out.dispatched = (batchGenerator v).map (fun b => b.map Prod.snd) ∧
      out.delivered = (dispatchBatches d 0 (batchGenerator v)).1 ∧
      out.blob =
        { blb with
            failed_events :=
              blb.failed_events ++
                (inv ++ (dispatchBatches d 0 (batchGenerator v)).2).map
                  (fun p => (p.1 + blb.position, blb.events.getD p.1 [], p.2.value)) } := by
  unfold sendEventsSSD at h
  cases hval : validateAndPrepareEventsToSend blb.events with
  | error er => rw [hval] at h; cases h
  | ok r =>
    obtain ⟨v, inv⟩ := r
    rw [hval] at h
    dsimp only at h
    injection h with h1
    subst h1
    refine ⟨v, inv, rfl, rfl, rfl, ?_⟩
    rw [appendFailures_spec]

/-- Inversion of a successful GA4 `send_events` run. -/
theorem sendEventsGA4_ok_inv {decodes : String → JsonOutcome} {post : Nat → GaValidationResp}
    {send : Nat → GaPostResp} {blb : Blob} {out : Ga4Outcome}
    (h : sendEventsGA4 decodes post send blb = .ok out) :
    ∃ r : Ga4Validated,
      validateEventsToSend decodes post blb.events = .ok r ∧
      out.delivered = (ga4SendAux send 0 r.valid).1 ∧
      out.logs = r.logs ∧
      out.blob =
        { blb with
            failed_events :=
              blb.failed_events ++
                (r.invalid ++ (ga4SendAux send 0 r.valid).2).map
                  (fun p => (p.1 + blb.position, blb.events.getD p.1 [], p.2.value)) } := by
  unfold sendEventsGA4 at h
  cases hval : validateEventsToSend decodes post blb.events with
  | error er => rw [hval] at h; cases h
  | ok r =>
    rw [hval] at h
    dsimp only at h
    injection h with h1
    subst h1
    refine ⟨r, rfl, rfl, rfl, ?_⟩
    rw [appendFailures_spec]

/-- Partition invariant of the ads hook's `send_events`: delivered and
failed indices partition the input range (shifted by the base position). -/
theorem ssd_partition {d : Nat → List StoreSalesTransaction → Option ErrorNameIDMap}
    {blb : Blob} {out : SsdOutcome}
    (h0 : blb.failed_events = []) (h : sendEventsSSD d blb = .ok out) :
    List.Perm
      (out.delivered.map (· + blb.position) ++ out.blob.failed_events.map (fun f => f.1))
      ((List.range blb.events.length).map (· + blb.position)) ∧
    (out.blob.failed_events.map (fun f => f.1)).Nodup ∧
    (∀ f ∈ out.blob.failed_events,
      blb.position ≤ f.1 ∧ f.1 < blb.position + blb.events.length) ∧
    out.delivered.length + out.blob.failed_events.length = blb.events.length := by
  obtain ⟨v, inv, hval, hdisp, hdel, hblob⟩ := sendEventsSSD_ok_inv h
  have hval' : validateAndPrepareAux 0 blb.events = .ok (v, inv) := hval
  obtain ⟨hperm1, _, _, _, _⟩ := validateAux_spec hval'
  have hperm2 := dispatchBatches_perm d (batchGenerator v) 0
  rw [batchGenerator_join] at hperm2
  have core :
      List.Perm
        ((dispatchBatches d 0 (batchGenerator v)).1 ++
          ((inv ++ (dispatchBatches d 0 (batchGenerator v)).2).map Prod.fst))
        (List.range' 0 blb.events.length) := by
    rw [List.map_append]
    have s1 :
        List.Perm
          ((dispatchBatches d 0 (batchGenerator v)).1 ++
            (inv.map Prod.fst ++
              ((dispatchBatches d 0 (batchGenerator v)).2.map Prod.fst)))
          ((dispatchBatches d 0 (batchGenerator v)).1 ++
            (((dispatchBatches d 0 (batchGenerator v)).2.map Prod.fst) ++
              inv.map Prod.fst)) :=
      List.Perm.append_left _ List.perm_append_comm
    refine s1.trans ?_
    rw [← List.append_assoc]
    exact (hperm2.append_right _).trans hperm1
  have hfidx :
      out.blob.failed_events.map (fun f => f.1) =
        ((inv ++ (dispatchBatches d 0 (batchGenerator v)).2).map Prod.fst).map
          (· + blb.position) := by
    rw [hblob]
    simp only [h0, List.nil_append, List.map_map]
    rfl
  have hflen :
      out.blob.failed_events.length =
        (inv ++ (dispatchBatches d 0 (batchGenerator v)).2).length := by
    rw [hblob]
    simp [h0]
  refine ⟨?_, ?_, ?_, ?_⟩
  · rw [hdel, hfidx, ← List.map_append, List.range_eq_range']
    exact core.map (· + blb.position)
  · rw [hfidx]
    have hnd :
        ((dispatchBatches d 0 (batchGenerator v)).1 ++
          ((inv ++ (dispatchBatches d 0 (batchGenerator v)).2).map Prod.fst)).Nodup :=
      (core.nodup_iff).mpr (List.nodup_range' ..)
    exact (hnd.of_append_right).map (add_left_injective blb.position)
  · intro f hf
    have hmem : f.1 ∈ out.blob.failed_events.map (fun f => f.1) :=
      List.mem_map_of_mem (fun f => f.1) hf
    rw [hfidx] at hmem
    obtain ⟨j, hj, hje⟩ := List.mem_map.mp hmem
    have hj2 : j ∈ List.range' 0 blb.events.length :=
      core.subset (List.mem_append_right _ hj)
    rw [List.mem_range'_1] at hj2
    omega
  · have hlen := core.length_eq
    rw [List.length_append, List.length_map, List.length_range'] at hlen
    rw [hdel, hflen]
    exact hlen

/-- Partition invariant of the GA4 hook's `send_events`. -/
theorem ga4_partition {decodes : String → JsonOutcome} {post : Nat → GaValidationResp}
    {send : Nat → GaPostResp} {blb : Blob} {out : Ga4Outcome}
    (h0 : blb.failed_events = []) (h : sendEventsGA4 decodes post send blb = .ok out) :
    List.Perm
      (out.delivered.map (· + blb.position) ++ out.blob.failed_events.map (fun f => f.1))
      ((List.range blb.events.length).map (· + blb.position)) ∧
    (out.blob.failed_events.map (fun f => f.1)).Nodup ∧
    (∀ f ∈ out.blob.failed_events,
      blb.position ≤ f.1 ∧ f.1 < blb.position + blb.events.length) ∧
    out.delivered.length + out.blob.failed_events.length = blb.events.length := by
  obtain ⟨r, hval, hdel, hlogs, hblob⟩ := sendEventsGA4_ok_inv h
  have hval' : ga4ValidateAux decodes post 0 0 blb.events = .ok r := hval
  obtain ⟨hperm1, _, _, _, _⟩ := ga4ValidateAux_spec decodes post blb.events 0 0 r hval'
  have hperm2 := ga4SendAux_perm send r.valid 0
  have core :
      List.Perm
        ((ga4SendAux send 0 r.valid).1 ++
          ((r.invalid ++ (ga4SendAux send 0 r.valid).2).map Prod.fst))
        (List.range' 0 blb.events.length) := by
    rw [List.map_append]
    have s1 :
        List.Perm
          ((ga4SendAux send 0 r.valid).1 ++
            (r.invalid.map Prod.fst ++ ((ga4SendAux send 0 r.valid).2.map Prod.fst)))
          ((ga4SendAux send 0 r.valid).1 ++
            (((ga4SendAux send 0 r.valid).2.map Prod.fst) ++ r.invalid.map Prod.fst)) :=
      List.Perm.append_left _ List.perm_append_comm
    refine s1.trans ?_
    rw [← List.append_assoc]
    exact (hperm2.append_right _).trans hperm1
  have hfidx :
      out.blob.failed_events.map (fun f => f.1) =
        ((r.invalid ++ (ga4SendAux send 0 r.valid).2).map Prod.fst).map
          (· + blb.position) := by
    rw [hblob]
    simp only [h0, List.nil_append, List.map_map]
    rfl
  have hflen :
      out.blob.failed_events.length =
        (r.invalid ++ (ga4SendAux send 0 r.valid).2).length := by
    rw [hblob]
    simp [h0]
  refine ⟨?_, ?_, ?_, ?_⟩
  · rw [hdel, hfidx, ← List.map_append, List.range_eq_range']
    exact core.map (· + blb.position)
  · rw [hfidx]
    have hnd :
        ((ga4SendAux send 0 r.valid).1 ++
          ((r.invalid ++ (ga4SendAux send 0 r.valid).2).map Prod.fst)).Nodup :=
      (core.nodup_iff).mpr (List.nodup_range' ..)
    exact (hnd.of_append_right).map (add_left_injective blb.position)
  · intro f hf
    have hmem : f.1 ∈ out.blob.failed_events.map (fun f => f.1) :=
      List.mem_map_of_mem (fun f => f.1) hf
    rw [hfidx] at hmem
    obtain ⟨j, hj, hje⟩ := List.mem_map.mp hmem
    have hj2 : j ∈ List.range' 0 blb.events.length :=
      core.subset (List.mem_append_right _ hj)
    rw [List.mem_range'_1] at hj2
    omega
  · have hlen := core.length_eq
    rw [List.length_append, List.length_map, List.length_range'] at hlen
    rw [hdel, hflen]
    exact hlen

/-- C1: for every input blob given to `send_events` of either hook (on a
successful run, i.e. whenever a result is returned), the delivered indices
and the reported failure indices together are exactly the input's index
range shifted by the base position (so every input index ends in exactly
one of delivered / reported-failed / rejected-at-validation, the latter two
both being reported failures); reported indices are pairwise distinct and
lie in `[position, position + len(events))`; and the number of delivered
events plus the number of reported failures equals the number of input
events. -/
theorem c1_send_events_partition :
    (∀ (d : Nat → List StoreSalesTransaction → Option ErrorNameIDMap)
        (blb : Blob) (out : SsdOutcome),
      blb.failed_events = [] → sendEventsSSD d blb = .ok out →
      List.Perm
        (out.delivered.map (· + blb.position) ++
          out.blob.failed_events.map (fun f => f.1))
        ((List.range blb.events.length).map (· + blb.position)) ∧
      (out.blob.failed_events.map (fun f => f.1)).Nodup ∧
      (∀ f ∈ out.blob.failed_events,
        blb.position ≤ f.1 ∧ f.1 < blb.position + blb.events.length) ∧
      out.delivered.length + out.blob.failed_events.length = blb.events.length) ∧
    (∀ (decodes : String → JsonOutcome) (post : Nat → GaValidationResp)
        (send : Nat → GaPostResp) (blb : Blob) (out : Ga4Outcome),
      blb.failed_events = [] → sendEventsGA4 decodes post send blb = .ok out →
      List.Perm
        (out.delivered.map (· + blb.position) ++
          out.blob.failed_events.map (fun f => f.1))
        ((List.range blb.events.length).map (· + blb.position)) ∧
      (out.blob.failed_events.map (fun f => f.1)).Nodup ∧
      (∀ f ∈ out.blob.failed_events,
        blb.position ≤ f.1 ∧ f.1 < blb.position + blb.events.length) ∧
      out.delivered.length + out.blob.failed_events.length = blb.events.length) :=
  ⟨fun _ _ _ h0 h => ssd_partition h0 h,
   fun _ _ _ _ _ h0 h => ga4_partition h0 h⟩

/-- Witness for C1 at a concrete two-event ads blob (one valid event, one
missing its mandatory fields) and a concrete one-event GA4 blob. -/
theorem c1_send_events_partition_witness :
    (List.Perm
      (c1Out.delivered.map (· + c1Blob.position) ++
        c1Out.blob.failed_events.map (fun f => f.1))
      ((List.range c1Blob.events.length).map (· + c1Blob.position)) ∧
    (c1Out.blob.failed_events.map (fun f => f.1)).Nodup ∧
    (∀ f ∈ c1Out.blob.failed_events,
      c1Blob.position ≤ f.1 ∧ f.1 < c1Blob.position + c1Blob.events.length) ∧
    c1Out.delivered.length + c1Out.blob.failed_events.length = c1Blob.events.length) ∧
    (List.Perm
      (c1GaOut.delivered.map (· + c1GaBlob.position) ++
        c1GaOut.blob.failed_events.map (fun f => f.1))
      ((List.range c1GaBlob.events.length).map (· + c1GaBlob.position)) ∧
    (c1GaOut.blob.failed_events.map (fun f => f.1)).Nodup ∧
    (∀ f ∈ c1GaOut.blob.failed_events,
      c1GaBlob.position ≤ f.1 ∧ f.1 < c1GaBlob.position + c1GaBlob.events.length) ∧
    c1GaOut.delivered.length + c1GaOut.blob.failed_events.length =
      c1GaBlob.events.length) :=
  ⟨c1_send_events_partition.1 dOk c1Blob c1Out rfl rfl,
   c1_send_events_partition.2 decodesTrue postOk sendOk c1GaBlob c1GaOut rfl rfl⟩

/-- C9: `_batch_generator` is a pure function (so applying it twice to the
same list trivially yields the same batch boundaries), and it yields
contiguous chunks of at most 1000 events each — every chunk except possibly
the last has exactly 1000, no chunk is empty — whose concatenation, in
order, equals the input list, so no indexed event is duplicated, dropped or
reordered and the indices riding on the events are preserved. -/
theorem c9_batch_generator_chunks (l : List (Nat × StoreSalesTransaction)) :
    (batchGenerator l).flatten = l ∧
    (∀ b ∈ batchGenerator l, b ≠ [] ∧ b.length ≤ DEFAULT_BATCH_SIZE) ∧
    (∀ b ∈ (batchGenerator l).dropLast, b.length = DEFAULT_BATCH_SIZE) ∧
    batchGenerator l = batchGenerator l :=
  ⟨batchGenerator_join l,
   fun _ hb => batchGenerator_mem hb,
   fun _ hb => batchGenerator_dropLast hb,
   rfl⟩

/-- When every event is missing a mandatory field, validation rejects each
with the missing-mandatory-fields code and accepts none. -/
theorem validateAux_all_missing {es : List Event}
    (hs : ∀ e ∈ es, mandatoryFields.all (fun f => hasField e f) = false) :
    ∀ i : Nat,
      validateAndPrepareAux i es =
        .ok ([], (List.range' i es.length).map
          (fun j => (j, ErrorNameIDMap.ADS_SSD_HOOK_ERROR_MISSING_MANDATORY_FIELDS))) := by
  induction es with
  | nil => intro i; rfl
  | cons e rest ih =>
    intro i
    have hf := formatEvent_missing_mandatory e (hs e (List.mem_cons_self e rest))
    have hrec := ih (fun e' he' => hs e' (List.mem_cons_of_mem _ he')) (i + 1)
    simp only [validateAndPrepareAux, hf, hrec, List.length_cons,
      List.range'_succ i rest.length 1, List.map_cons]

/-- C7: an event missing at least one of the mandatory fields
`transactionTime`, `microAmount`, `currencyCode`, `conversionName` is
rejected by `_format_event` with the single missing-mandatory-fields error
code, and such records never reach dispatch: on a blob whose every record
is missing a mandatory field, `send_events` makes zero outbound dispatch
calls and reports every record as failed with that code.  (The error's
message text, which names the required set, is not part of the embedding.) -/
theorem c7_missing_mandatory_rejected
    (d : Nat → List StoreSalesTransaction → Option ErrorNameIDMap) (blb : Blob)
    (h0 : blb.failed_events = [])
    (hs : ∀ e ∈ blb.events, mandatoryFields.all (fun f => hasField e f) = false) :
    (∀ e ∈ blb.events,
      formatEvent e = .error (.value .ADS_SSD_HOOK_ERROR_MISSING_MANDATORY_FIELDS)) ∧
    ∃ out, sendEventsSSD d blb = .ok out ∧
      out.dispatched = [] ∧
      out.blob.failed_events =
        (List.range blb.events.length).map
          (fun j => (j + blb.position, blb.events.getD j [],
            ErrorNameIDMap.ADS_SSD_HOOK_ERROR_MISSING_MANDATORY_FIELDS.value)) := by
  refine ⟨fun e he => formatEvent_missing_mandatory e (hs e he), ?_⟩
  have hval : validateAndPrepareEventsToSend blb.events =
      .ok ([], (List.range' 0 blb.events.length).map
        (fun j => (j, ErrorNameIDMap.ADS_SSD_HOOK_ERROR_MISSING_MANDATORY_FIELDS))) :=
    validateAux_all_missing hs 0
  unfold sendEventsSSD
  rw [hval]
  dsimp only
  rw [batchGenerator_eq_nil]
  refine ⟨_, rfl, rfl, ?_⟩
  rw [appendFailures_spec]
  dsimp only
  rw [h0, List.range_eq_range']
  simp only [dispatchBatches, List.append_nil, List.nil_append, List.map_map]
  rfl

/-- Witness for C7 at a concrete one-event blob missing all mandatory
fields. -/
theorem c7_missing_mandatory_rejected_witness :
    (∀ e ∈ c7Blob.events,
      formatEvent e = .error (.value .ADS_SSD_HOOK_ERROR_MISSING_MANDATORY_FIELDS)) ∧
    ∃ out, sendEventsSSD dOk c7Blob = .ok out ∧
      out.dispatched = [] ∧
      out.blob.failed_events =
        (List.range c7Blob.events.length).map
          (fun j => (j + c7Blob.position, c7Blob.events.getD j [],
            ErrorNameIDMap.ADS_SSD_HOOK_ERROR_MISSING_MANDATORY_FIELDS.value)) :=
  c7_missing_mandatory_rejected dOk c7Blob rfl (by decide)

/-- C10: for every event accepted by store-sales validation, the produced
destination record contains, in table order, one `userIdentifiers` entry
per present identifier field carrying the original field value unchanged
and tagged with the `userIdentifierType` of the fixed mapping — a mapping
in which `firstName` is tagged `HASHED_LAST_NAME` and `lastName` is tagged
`HASHED_FIRST_NAME` (the two name tags are swapped relative to their field
names), while the non-hashed identifier tags (city, state, zip, country)
are not in `hashed_types` and therefore get no SHA-256 format check. -/
theorem c10_user_identifiers_mapping :
    (∀ (e : Event) (t : StoreSalesTransaction), formatEvent e = .ok t →
      t.userIdentifiers =
        identifierTypes.filterMap
          (fun q => (getField e q.1).map (fun v => (q.2, v)))) ∧
    (("firstName", "HASHED_LAST_NAME") ∈ identifierTypes ∧
     ("lastName", "HASHED_FIRST_NAME") ∈ identifierTypes ∧
     ("city", "CITY") ∈ identifierTypes ∧
     ("state", "STATE") ∈ identifierTypes ∧
     ("zip", "ZIPCODE") ∈ identifierTypes ∧
     ("country", "COUNTRY_CODE") ∈ identifierTypes ∧
     hashedTypes.contains "CITY" = false ∧
     hashedTypes.contains "STATE" = false ∧
     hashedTypes.contains "ZIPCODE" = false ∧
     hashedTypes.contains "COUNTRY_CODE" = false) := by
  constructor
  · intro e t h
    obtain ⟨-, ids, hcol, -, huid, -⟩ := formatEvent_ok_inv h
    rw [huid]
    exact collectIdentifiersAux_ok hcol
  · decide

/-- Witness for C10 at a concrete accepted event carrying name, city and
transaction fields. -/
theorem c10_user_identifiers_mapping_witness :
    c10Out.userIdentifiers =
      identifierTypes.filterMap
        (fun q => (getField c10Event q.1).map (fun v => (q.2, v))) ∧
    ("firstName", "HASHED_LAST_NAME") ∈ identifierTypes :=
  ⟨c10_user_identifiers_mapping.1 c10Event c10Out rfl,
   c10_user_identifiers_mapping.2.1⟩

/-- Counterexample to C8 as stated: the source checks `transactionTime`
with `re.match`, which anchors only at the start, so this event whose
`transactionTime` has trailing characters after the zone (and hence fails
the claimed whole-string match) is nevertheless accepted by
`_format_event`. -/
theorem c8_whole_match_counterexample :
    specWholeDateTime c8Time = false ∧
    reMatchDateTime c8Time = true ∧
    (formatEvent c8Event).isOk = true ∧
    (exOkD (formatEvent c8Event)).transactionTime = Val.str c8Time := by
  refine ⟨by decide, by decide, by decide, by decide⟩

/-- C8 (amended): for every event whose mandatory fields are present and
whose identifiers pass validation (non-empty, hashed ones well-formed),
with a string `transactionTime`, `_format_event` rejects with the
invalid-conversion-time code exactly when the string does not match
`eight digits, space, six digits, space, zone-or-offset character` as a
PREFIX (the `re.match` semantics of the source — trailing characters are
not constrained), and a matching `transactionTime` is carried into the
destination record unchanged. -/
theorem c8_transaction_time_re_match :
    ∀ (e : Event) (ids : List (String × Val)) (s : String),
      mandatoryFields.all (fun f => hasField e f) = true →
      collectIdentifiers e = .ok ids → ids.isEmpty = false →
      (getField e "transactionTime").getD .none = Val.str s →
      ((formatEvent e =
          .error (.value .ADS_SSD_HOOK_ERROR_INVALID_FORMAT_OF_CONVERSION_TIME)) ↔
        reMatchDateTime s = false) ∧
      (∀ t, formatEvent e = .ok t → t.transactionTime = Val.str s) := by
  intro e ids s hmand hcol hne htt
  constructor
  · constructor
    · intro h
      by_cases hm : reMatchDateTime s
      · exact absurd h (formatEvent_time_pass hmand hcol hne htt hm)
      · exact Bool.not_eq_true _ ▸ (by simpa using hm)
    · intro h
      exact formatEvent_time_reject hmand hcol hne htt h
  · intro t ht
    obtain ⟨-, ids', -, -, -, httc, -⟩ := formatEvent_ok_inv ht
    rw [httc, htt]

/-- Witness for the amended C8 at the repository's own test event. -/
theorem c8_transaction_time_re_match_witness :
    ((formatEvent goodEvent =
        .error (.value .ADS_SSD_HOOK_ERROR_INVALID_FORMAT_OF_CONVERSION_TIME)) ↔
      reMatchDateTime "20191030 122301 Asia/Calcutta" = false) ∧
    (∀ t, formatEvent goodEvent = .ok t →
      t.transactionTime = Val.str "20191030 122301 Asia/Calcutta") :=
  c8_transaction_time_re_match goodEvent [("HASHED_EMAIL", .str sha64)]
    "20191030 122301 Asia/Calcutta" (by decide) rfl (by decide) (by decide)

/-- Counterexample to C3 as stated: a record whose `microAmount` has an
unexpected (non-string) type does NOT get recorded as an
`(index, ErrorCode)` failure — `event['microAmount'].isdigit()` raises an
uncaught `AttributeError` and the whole ads `send_events` call aborts; and
on the GA4 side a record whose string payload decodes to non-dict JSON
(payload `"3"`) makes the `validationBehavior` item assignment raise an
uncaught `TypeError`, aborting that `send_events` call as well. -/
theorem c3_type_error_aborts_counterexample :
    formatEvent c3Event = .error .typeError ∧
    sendEventsSSD dOk c3Blob = .error .typeError ∧
    sendEventsGA4 decodesNonDict postOk sendOk c3GaAbortBlob = .error .typeError :=
  ⟨rfl, rfl, rfl⟩

/-- C3 (amended): per-record problems signalled as
`DataOutConnectorValueError` never abort `send_events` of either hook — the
only way a call aborts after construction is an uncaught
`TypeError`/`AttributeError`, raised either by a field value of unexpected
type (e.g. a non-string `microAmount`, `transactionTime`, hashed
identifier or GA4 payload) or, in the GA4 hook, by a string payload that
decodes to non-dict JSON (the `validationBehavior` item assignment sits
outside the try block); on blobs free of both abort conditions,
`send_events` returns a result even when every record failed. -/
theorem c3_value_errors_never_abort :
    (∀ (d : Nat → List StoreSalesTransaction → Option ErrorNameIDMap)
        (blb : Blob) (er : PyErr),
      sendEventsSSD d blb = .error er → er = .typeError) ∧
    (∀ (d : Nat → List StoreSalesTransaction → Option ErrorNameIDMap) (blb : Blob),
      (∀ e ∈ blb.events, e.all (fun p => p.2.isStr) = true) →
      ∃ out, sendEventsSSD d blb = .ok out) ∧
    (∀ (decodes : String → JsonOutcome) (post : Nat → GaValidationResp)
        (send : Nat → GaPostResp) (blb : Blob) (er : PyErr),
      sendEventsGA4 decodes post send blb = .error er → er = .typeError) ∧
    (∀ (decodes : String → JsonOutcome) (post : Nat → GaValidationResp)
        (send : Nat → GaPostResp) (blb : Blob),
      (∀ e ∈ blb.events, ga4Aborts decodes e = false) →
      ∃ out, sendEventsGA4 decodes post send blb = .ok out) := by
  refine ⟨?_, ?_, ?_, ?_⟩
  · intro d blb er h
    unfold sendEventsSSD at h
    cases hval : validateAndPrepareEventsToSend blb.events with
    | error er' =>
      rw [hval] at h
      injection h with h1
      subst h1
      exact validateAux_error hval
    | ok r =>
      obtain ⟨v, inv⟩ := r
      rw [hval] at h
      cases h
  · intro d blb hs
    have hne : ∀ e ∈ blb.events, formatEvent e ≠ .error .typeError := by
      intro e he
      refine formatEvent_no_typeError ?_
      intro p hp
      exact List.all_eq_true.mp (hs e he) p hp
    obtain ⟨⟨v, inv⟩, hval⟩ := validateAux_ok_of hne 0
    have hval' : validateAndPrepareEventsToSend blb.events = .ok (v, inv) := hval
    unfold sendEventsSSD
    rw [hval']
    exact ⟨_, rfl⟩
  · intro decodes post send blb er h
    unfold sendEventsGA4 at h
    cases hval : validateEventsToSend decodes post blb.events with
    | error er' =>
      rw [hval] at h
      injection h with h1
      subst h1
      exact ga4ValidateAux_error decodes post blb.events 0 0 _ hval
    | ok r =>
      rw [hval] at h
      cases h
  · intro decodes post send blb hs
    obtain ⟨r, hval⟩ := ga4ValidateAux_ok_of decodes post hs 0 0
    have hval' : validateEventsToSend decodes post blb.events = .ok r := hval
    unfold sendEventsGA4
    rw [hval']
    exact ⟨_, rfl⟩

/-- Witness for the amended C3: the abort classification applied at the
aborting blob, and the return-even-if-all-failed parts applied at concrete
well-typed blobs of both hooks. -/
theorem c3_value_errors_never_abort_witness :
    (PyErr.typeError = PyErr.typeError) ∧
    (∃ out, sendEventsSSD dOk c3WBlob = .ok out) ∧
    (∃ out, sendEventsGA4 decodesTrue postOk sendOk c3GaBlob = .ok out) :=
  ⟨c3_value_errors_never_abort.1 dOk c3Blob .typeError rfl,
   c3_value_errors_never_abort.2.1 dOk c3WBlob (by decide),
   c3_value_errors_never_abort.2.2.2 decodesTrue postOk sendOk c3GaBlob (by decide)⟩

/-- Counterexample to C2 as stated: with a valid event at index 0 whose
dispatch fails and a validation failure at index 1, `send_events` reports
the failure indices as `[1, 0]` — validation failures are appended before
dispatch failures, so the failure sequence is not ordered by originalIndex
ascending. -/
theorem c2_ordering_counterexample :
    Except.map (fun o => o.blob.failed_events.map (fun f => f.1))
        (sendEventsSSD dAuth c2Blob) = .ok [1, 0] ∧
    ¬ (List.Pairwise (fun a b => a ≤ b) [1, 0]) :=
  ⟨by decide, by decide⟩

/-- C2 (amended): the failure sequence produced by `send_events` of either
hook is the validation failures (ordered by originalIndex ascending)
followed by the dispatch failures (ordered by originalIndex ascending) —
not globally sorted when a validation failure has a higher original index
than a later dispatch failure — and every reported index equals the
record's original input index plus the blob's base position. -/
theorem c2_failures_grouped_offset :
    (∀ (d : Nat → List StoreSalesTransaction → Option ErrorNameIDMap)
        (blb : Blob) (out : SsdOutcome)
        (v : List (Nat × StoreSalesTransaction)) (inv : List (Nat × ErrorNameIDMap)),
      blb.failed_events = [] →
      validateAndPrepareEventsToSend blb.events = .ok (v, inv) →
      sendEventsSSD d blb = .ok out →
      out.blob.failed_events.map (fun f => f.1) =
        (inv.map Prod.fst).map (· + blb.position) ++
          ((dispatchBatches d 0 (batchGenerator v)).2.map Prod.fst).map
            (· + blb.position) ∧
      (inv.map Prod.fst).Pairwise (· < ·) ∧
      ((dispatchBatches d 0 (batchGenerator v)).2.map Prod.fst).Pairwise (· < ·)) ∧
    (∀ (decodes : String → JsonOutcome) (post : Nat → GaValidationResp)
        (send : Nat → GaPostResp) (blb : Blob) (out : Ga4Outcome)
        (r : Ga4Validated),
      blb.failed_events = [] →
      validateEventsToSend decodes post blb.events = .ok r →
      sendEventsGA4 decodes post send blb = .ok out →
      out.blob.failed_events.map (fun f => f.1) =
        (r.invalid.map Prod.fst).map (· + blb.position) ++
          ((ga4SendAux send 0 r.valid).2.map Prod.fst).map (· + blb.position) ∧
      (r.invalid.map Prod.fst).Pairwise (· < ·) ∧
      ((ga4SendAux send 0 r.valid).2.map Prod.fst).Pairwise (· < ·)) := by
  constructor
  · intro d blb out v inv h0 hval h
    obtain ⟨v', inv', hval', hdisp, hdel, hblob⟩ := sendEventsSSD_ok_inv h
    rw [hval] at hval'
    injection hval' with hval'
    injection hval' with hv hinv
    subst hv; subst hinv
    obtain ⟨-, hpv, hpi, -, -⟩ := validateAux_spec (hval :
      validateAndPrepareAux 0 blb.events = .ok (v, inv))
    have hsub := dispatchBatches_sublist d (batchGenerator v) 0
    rw [batchGenerator_join] at hsub
    refine ⟨?_, hpi, hpv.sublist hsub⟩
    rw [hblob]
    simp only [h0, List.nil_append, List.map_map, List.map_append]
    rfl
  · intro decodes post send blb out r h0 hval h
    obtain ⟨r', hval', hdel, hlogs, hblob⟩ := sendEventsGA4_ok_inv h
    rw [hval] at hval'
    injection hval' with hval'
    subst hval'
    obtain ⟨-, hpv, hpi, -, -⟩ := ga4ValidateAux_spec decodes post blb.events 0 0 r
      (hval : ga4ValidateAux decodes post 0 0 blb.events = .ok r)
    have hsub := ga4SendAux_sublist send r.valid 0
    refine ⟨?_, hpi, hpv.sublist hsub⟩
    rw [hblob]
    simp only [h0, List.nil_append, List.map_map, List.map_append]
    rfl

/-- Witness for the amended C2 at a concrete blob (validation failure at
index 0, dispatch failure at index 1, base position 4). -/
theorem c2_failures_grouped_offset_witness :
    (exOkD (sendEventsSSD dAuth c2WBlob)).blob.failed_events.map (fun f => f.1) =
      ([(0, ErrorNameIDMap.ADS_SSD_HOOK_ERROR_MISSING_MANDATORY_FIELDS)].map
          Prod.fst).map (· + c2WBlob.position) ++
        ((dispatchBatches dAuth 0
            (batchGenerator [(1, exOkD (formatEvent goodEvent))])).2.map Prod.fst).map
          (· + c2WBlob.position) ∧
    (([(0, ErrorNameIDMap.ADS_SSD_HOOK_ERROR_MISSING_MANDATORY_FIELDS)].map
        Prod.fst).Pairwise (· < ·)) ∧
    (((dispatchBatches dAuth 0
        (batchGenerator [(1, exOkD (formatEvent goodEvent))])).2.map Prod.fst).Pairwise
      (· < ·)) :=
  (c2_failures_grouped_offset.1 dAuth c2WBlob (exOkD (sendEventsSSD dAuth c2WBlob))
    [(1, exOkD (formatEvent goodEvent))]
    [(0, ErrorNameIDMap.ADS_SSD_HOOK_ERROR_MISSING_MANDATORY_FIELDS)]
    rfl (by decide) rfl)

/-- Counterexample to C5 as stated: the source tests `status_code != 200`,
not "non-2xx".  A 204 response — a 2xx status carrying zero validation
messages, which the claim says means accepted — is classified as a
retriable HTTP error and the event is reported failed, not sent. -/
theorem c5_status_204_counterexample :
    Except.map (fun o => o.blob.failed_events.map (fun f => (f.1, f.2.2)))
        (sendEventsGA4 decodesTrue (fun _ => .resp 204 []) sendOk c5Blob) =
      .ok [(0, ErrorNameIDMap.RETRIABLE_GA4_HOOK_ERROR_HTTP_ERROR.value)] ∧
    200 ≤ 204 ∧ 204 < 300 :=
  ⟨by decide, by decide, by decide⟩

/-- C5 (amended): for every event reaching the GA4 remote validation call
(id and string payload present, payload decoding to a JSON object): a
transport failure or a
response whose status differs from 200 — including 2xx statuses other than
200 — marks the event with the retriable HTTP-error code; a 200 response
with zero validation messages means accepted; a 200 response with messages
maps the first message through the fixed `_ERROR_TYPES` table (fieldPath by
equality, or property name by substring of the description, first match
wins), and when no entry matches the event gets the generic invalid-values
code plus a diagnostic log line carrying the raw row id, field path and
description. -/
theorem c5_remote_validation_classification :
    ∀ (decodes : String → JsonOutcome) (e : Event) (rowId : Val) (s : String),
      getField e "id" = some rowId →
      getField e "payload" = some (Val.str s) →
      decodes s = JsonOutcome.dict →
      (ga4ValidateOne decodes e .connError =
        .rejected .RETRIABLE_GA4_HOOK_ERROR_HTTP_ERROR Option.none) ∧
      (∀ (st : Nat) (msgs : List (Val × String)), st ≠ 200 →
        ga4ValidateOne decodes e (.resp st msgs) =
          .rejected .RETRIABLE_GA4_HOOK_ERROR_HTTP_ERROR Option.none) ∧
      (ga4ValidateOne decodes e (.resp 200 []) = .accepted) ∧
      (∀ (fp : Val) (desc : String) (rest : List (Val × String))
          (p : String × ErrorNameIDMap),
        findErrorType fp desc = some p →
        ga4ValidateOne decodes e (.resp 200 ((fp, desc) :: rest)) =
          .rejected p.2 Option.none) ∧
      (∀ (fp : Val) (desc : String) (rest : List (Val × String)),
        findErrorType fp desc = Option.none →
        ga4ValidateOne decodes e (.resp 200 ((fp, desc) :: rest)) =
          .rejected .GA4_HOOK_ERROR_INVALID_VALUES (some (rowId, fp, desc))) := by
  intro decodes e rowId s hid hpl hdec
  refine ⟨?_, ?_, ?_, ?_, ?_⟩
  · unfold ga4ValidateOne
    rw [hid, hpl]
    simp [hdec]
  · intro st msgs hst
    unfold ga4ValidateOne
    rw [hid, hpl]
    have hst' : (st != 200) = true := by
      simpa using hst
    simp [hdec, hst']
  · unfold ga4ValidateOne
    rw [hid, hpl]
    simp [hdec]
  · intro fp desc rest p hfind
    unfold ga4ValidateOne
    rw [hid, hpl]
    simp [hdec, hfind]
  · intro fp desc rest hfind
    unfold ga4ValidateOne
    rw [hid, hpl]
    simp [hdec, hfind]

/-- Witness for the amended C5 at the concrete one-event GA4 fixture. -/
theorem c5_remote_validation_classification_witness :
    (ga4ValidateOne decodesTrue gaEvent .connError =
      .rejected .RETRIABLE_GA4_HOOK_ERROR_HTTP_ERROR Option.none) ∧
    (∀ (st : Nat) (msgs : List (Val × String)), st ≠ 200 →
      ga4ValidateOne decodesTrue gaEvent (.resp st msgs) =
        .rejected .RETRIABLE_GA4_HOOK_ERROR_HTTP_ERROR Option.none) ∧
    (ga4ValidateOne decodesTrue gaEvent (.resp 200 []) = .accepted) ∧
    (∀ (fp : Val) (desc : String) (rest : List (Val × String))
        (p : String × ErrorNameIDMap),
      findErrorType fp desc = some p →
      ga4ValidateOne decodesTrue gaEvent (.resp 200 ((fp, desc) :: rest)) =
        .rejected p.2 Option.none) ∧
    (∀ (fp : Val) (desc : String) (rest : List (Val × String)),
      findErrorType fp desc = Option.none →
      ga4ValidateOne decodesTrue gaEvent (.resp 200 ((fp, desc) :: rest)) =
        .rejected .GA4_HOOK_ERROR_INVALID_VALUES (some (Val.int 1, fp, desc))) :=
  c5_remote_validation_classification decodesTrue gaEvent (Val.int 1) "p" rfl rfl rfl

theorem formatEvent_goodEvent : formatEvent goodEvent = .ok goodPayload := by decide

/-- Validating `n` copies of the valid fixture accepts all of them. -/
theorem validateAux_replicate :
    ∀ (n i : Nat),
      validateAndPrepareAux i (List.replicate n goodEvent) =
        .ok ((List.range' i n).map (fun j => (j, goodPayload)), []) := by
  intro n
  induction n with
  | zero => intro i; rfl
  | succ m ih =>
    intro i
    rw [List.replicate_succ]
    simp only [validateAndPrepareAux, formatEvent_goodEvent, ih (i + 1),
      List.range'_succ i m 1, List.map_cons]

set_option maxRecDepth 10000 in
/-- Counterexample to C6 as stated: with 1001 valid events (two batches)
and a dispatcher whose every call — the first one included — raises the
authentication failure code, `send_events` still performs 2 outbound
dispatch calls: the batch loop catches the per-batch
`DataOutConnectorSendUnsuccessfulError` and continues, so dispatch is NOT
halted for the batch after the authentication failure (all 1001 records
are recorded as failures, so the first half of the claim does hold). -/
theorem c6_halt_counterexample :
    Except.map (fun o => (o.dispatched.length, o.blob.failed_events.length))
        (sendEventsSSD dAuth c6Blob) = .ok (2, 1001) := by
  have hval : validateAndPrepareEventsToSend c6Blob.events =
      .ok ((List.range' 0 1001).map (fun j => (j, goodPayload)), []) :=
    validateAux_replicate 1001 0
  unfold sendEventsSSD
  rw [hval]
  dsimp only [Except.map]
  have hconst := dispatchBatches_const_fail
    ErrorNameIDMap.ADS_HOOK_ERROR_AUTHENTICATION_FAILED
    (batchGenerator ((List.range' 0 1001).map (fun j => (j, goodPayload)))) 0
  have hjoin := batchGenerator_join ((List.range' 0 1001).map (fun j => (j, goodPayload)))
  have hd : dispatchBatches dAuth 0
      (batchGenerator ((List.range' 0 1001).map (fun j => (j, goodPayload)))) =
      ([], ((List.range' 0 1001).map (fun j => (j, goodPayload))).map
        (fun p => (p.1, ErrorNameIDMap.ADS_HOOK_ERROR_AUTHENTICATION_FAILED))) := by
    rw [show dAuth = (fun _ _ =>
      some ErrorNameIDMap.ADS_HOOK_ERROR_AUTHENTICATION_FAILED) from rfl]
    rw [hconst, hjoin]
  rw [hd, appendFailures_spec]
  simp only [List.nil_append, List.length_map, List.length_range', List.map_map]
  have hblen :
      (batchGenerator ((List.range' 0 1001).map (fun j => (j, goodPayload)))).length
        = 2 := by
    unfold batchGenerator
    simp [List.length_range', DEFAULT_BATCH_SIZE]
  simp only [c6Blob, List.length_map, hblen]
  rfl

/-- C6 (amended): a dispatch failure — the authentication/credential
failure surfaced as a caught `DataOutConnectorSendUnsuccessfulError`
included — records a failure entry for every record of the affected batch,
but does NOT halt dispatch: the batch loop of `send_events` hands every
generated batch to `add_store_sales_conversions`, whatever any earlier
call raised. -/
theorem c6_auth_failure_recorded_no_halt :
    ∀ (d : Nat → List StoreSalesTransaction → Option ErrorNameIDMap)
      (blb : Blob) (out : SsdOutcome)
      (v : List (Nat × StoreSalesTransaction)) (inv : List (Nat × ErrorNameIDMap)),
      blb.failed_events = [] →
      validateAndPrepareEventsToSend blb.events = .ok (v, inv) →
      sendEventsSSD d blb = .ok out →
      out.dispatched = (batchGenerator v).map (fun b => b.map Prod.snd) ∧
      (∀ (j : Nat) (b : List (Nat × StoreSalesTransaction)) (c : ErrorNameIDMap),
        (batchGenerator v).get? j = some b →
        d j (b.map Prod.snd) = some c →
        ∀ p ∈ b,
          (p.1 + blb.position, blb.events.getD p.1 [], c.value) ∈
            out.blob.failed_events) := by
  intro d blb out v inv h0 hval h
  obtain ⟨v', inv', hval', hdisp, hdel, hblob⟩ := sendEventsSSD_ok_inv h
  rw [hval] at hval'
  injection hval' with hval'
  injection hval' with hv hinv
  subst hv; subst hinv
  refine ⟨hdisp, ?_⟩
  intro j b c hget hd p hp
  have hmem : (p.1, c) ∈ (dispatchBatches d 0 (batchGenerator v)).2 := by
    refine dispatchBatches_failed_mem d (batchGenerator v) 0 j b c hget ?_ p hp
    rw [Nat.zero_add]
    exact hd
  rw [hblob]
  simp only [h0, List.nil_append, List.mem_map]
  exact ⟨(p.1, c), List.mem_append_right inv hmem, rfl⟩

/-- Witness for the amended C6 at a concrete one-event blob whose only
dispatch call fails with the authentication code. -/
theorem c6_auth_failure_recorded_no_halt_witness :
    (exOkD (sendEventsSSD dAuth c6WBlob)).dispatched =
      (batchGenerator [(0, goodPayload)]).map (fun b => b.map Prod.snd) ∧
    (∀ (j : Nat) (b : List (Nat × StoreSalesTransaction)) (c : ErrorNameIDMap),
      (batchGenerator [(0, goodPayload)]).get? j = some b →
      dAuth j (b.map Prod.snd) = some c →
      ∀ p ∈ b,
        (p.1 + c6WBlob.position, c6WBlob.events.getD p.1 [], c.value) ∈
          (exOkD (sendEventsSSD dAuth c6WBlob)).blob.failed_events) :=
  c6_auth_failure_recorded_no_halt dAuth c6WBlob (exOkD (sendEventsSSD dAuth c6WBlob))
    [(0, goodPayload)] [] rfl (by decide) rfl

theorem contains_singleton (r x : Nat) : List.contains [r] x = (x == r) := by
  by_cases h : x = r <;> simp [List.elem_eq_mem, h]

/-- Filtering a nodup-keyed association list for one present key keeps
exactly its entry. -/
theorem filter_fst_singleton {l : List (Nat × StoreSalesTransaction)} {r : Nat}
    {pr : StoreSalesTransaction}
    (hnd : (l.map Prod.fst).Nodup) (hmem : (r, pr) ∈ l) :
    l.filter (fun p => List.contains [r] p.1) = [(r, pr)] := by
  induction l with
  | nil => cases hmem
  | cons q rest ih =>
    rw [List.map_cons, List.nodup_cons] at hnd
    rw [List.mem_cons] at hmem
    cases hmem with
    | inl hq =>
      subst hq
      rw [List.filter_cons_of_pos (by simp [contains_singleton])]
      have hrest : rest.filter (fun p => List.contains [r] p.1) = [] := by
        rw [List.filter_eq_nil_iff]
        intro p hp
        rw [contains_singleton]
        simp only [beq_eq_false_iff_ne, ne_eq, Bool.not_eq_true]
        intro hcon
        exact hnd.1 (by rw [← hcon]; exact List.mem_map.mpr ⟨p, hp, rfl⟩)
      rw [hrest]
    | inr hrest =>
      have hq : (q.1 == r) = false := by
        simp only [beq_eq_false_iff_ne, ne_eq]
        intro hcon
        exact hnd.1 (by rw [hcon]; exact List.mem_map.mpr ⟨(r, pr), hrest, rfl⟩)
      rw [List.filter_cons_of_neg (by rw [contains_singleton, hq]; simp)]
      exact ih hnd.2 hrest

theorem resolveGo_zero (d : Dispatcher) (attempt : Nat)
    (cur : List (Nat × StoreSalesTransaction)) :
    resolveGo d attempt 0 cur = ⟨[], [], []⟩ := rfl

theorem resolveGo_succ (d : Dispatcher) (attempt fuel : Nat)
    (cur : List (Nat × StoreSalesTransaction)) :
    resolveGo d attempt (fuel + 1) cur =
      (let errs := d attempt cur
       let failedIds := errs.map (·.idx)
       let succ := (cur.map Prod.fst).filter (fun i => !failedIds.contains i)
       let terminalFailures :=
         (errs.filter (fun e => e.cls == .terminal)).map (fun e => (e.idx, e.code))
       let retriables := errs.filter (fun e => e.cls == .retriable)
       if retriables.isEmpty || fuel == 0 then
         ⟨succ, terminalFailures ++ retriables.map (fun e => (e.idx, e.code)), [cur]⟩
       else
         let retryIds := retriables.map (·.idx)
         let next := cur.filter (fun p => retryIds.contains p.1)
         let rest := resolveGo d (attempt + 1) fuel next
         ⟨succ ++ rest.succeeded, terminalFailures ++ rest.failures,
          cur :: rest.trace⟩) := rfl

/-- One non-final attempt of the Retry Controller against the persistently
failing dispatcher: everything except `r` succeeds, and only `[(r, pr)]` —
the retriable subset — is re-dispatched. -/
theorem resolveGo_persist_step (codes : Nat → ErrorNameIDMap) {r : Nat}
    {pr : StoreSalesTransaction} {cur : List (Nat × StoreSalesTransaction)}
    (hnd : (cur.map Prod.fst).Nodup) (hmem : (r, pr) ∈ cur) (attempt m : Nat) :
    resolveGo (persistRetriable r codes) attempt (m + 2) cur =
      ⟨(cur.map Prod.fst).filter (fun i => !(List.contains [r] i)) ++
          (resolveGo (persistRetriable r codes) (attempt + 1) (m + 1) [(r, pr)]).succeeded,
       (resolveGo (persistRetriable r codes) (attempt + 1) (m + 1) [(r, pr)]).failures,
       cur ::
          (resolveGo (persistRetriable r codes) (attempt + 1) (m + 1) [(r, pr)]).trace⟩ := by
  have hcont : (cur.map Prod.fst).contains r = true := by
    have hm : r ∈ cur.map Prod.fst := List.mem_map.mpr ⟨(r, pr), hmem, rfl⟩
    simpa [List.elem_eq_mem] using hm
  have hstep := resolveGo_succ (persistRetriable r codes) attempt (m + 1) cur
  rw [show m + 1 + 1 = m + 2 from rfl] at hstep
  rw [hstep]
  rw [show persistRetriable r codes attempt cur = [⟨r, .retriable, codes attempt⟩] from by
    unfold persistRetriable
    rw [hcont]
    rfl]
  dsimp only
  have ht : (RetryClass.retriable == RetryClass.terminal) = false := rfl
  have hr : (RetryClass.retriable == RetryClass.retriable) = true := rfl
  have h0 : (m + 1 == 0) = false := by simp
  simp only [List.filter_cons, List.filter_nil, List.map_cons, List.map_nil, ht, hr,
    cond_true, cond_false, List.isEmpty_cons, Bool.false_or, h0, Bool.false_eq_true,
    if_false, if_true, List.nil_append]
  rw [filter_fst_singleton hnd hmem]

/-- The final allowed attempt against the persistently failing dispatcher:
the remaining retriable failure becomes a final failure carrying the last
attempt's code. -/
theorem resolveGo_persist_last (codes : Nat → ErrorNameIDMap) (r : Nat)
    (pr : StoreSalesTransaction) (attempt : Nat) :
    resolveGo (persistRetriable r codes) attempt 1 [(r, pr)] =
      ⟨[], [(r, codes attempt)], [[(r, pr)]]⟩ := by
  have hstep := resolveGo_succ (persistRetriable r codes) attempt 0 [(r, pr)]
  rw [hstep]
  rw [show persistRetriable r codes attempt [(r, pr)] =
      [⟨r, .retriable, codes attempt⟩] from by
    unfold persistRetriable
    simp [contains_singleton]]
  dsimp only
  have ht : (RetryClass.retriable == RetryClass.terminal) = false := rfl
  have hr : (RetryClass.retriable == RetryClass.retriable) = true := rfl
  simp [contains_singleton]

/-- C4: against a dispatcher that classifies record `r` as retriable on
every attempt, the spec-modelled Retry Controller re-dispatches only the
retriable subset `[(r, pr)]` on attempts 2..5 (the trace lists exactly what
each dispatch call received), stops after the fixed bound of 5 total
dispatch attempts for the batch — so the dispatcher is invoked exactly
`MAX_ATTEMPTS` times — and ends with exactly one final failure for `r`
carrying the last attempt's (last-seen) error code, every other record of
the batch succeeding exactly once. -/
theorem c4_retry_bounded :
    ∀ (codes : Nat → ErrorNameIDMap) (r : Nat) (pr : StoreSalesTransaction)
      (batch : List (Nat × StoreSalesTransaction)),
      (batch.map Prod.fst).Nodup → (r, pr) ∈ batch →
      resolve (persistRetriable r codes) batch =
        ⟨(batch.map Prod.fst).filter (fun i => !(List.contains [r] i)),
         [(r, codes MAX_ATTEMPTS)],
         batch :: List.replicate (MAX_ATTEMPTS - 1) [(r, pr)]⟩ ∧
      (batch :: List.replicate (MAX_ATTEMPTS - 1) [(r, pr)]).length = MAX_ATTEMPTS := by
  intro codes r pr batch hnd hmem
  have hnd1 : (([(r, pr)] : List (Nat × StoreSalesTransaction)).map Prod.fst).Nodup := by
    simp
  have hmem1 : (r, pr) ∈ ([(r, pr)] : List (Nat × StoreSalesTransaction)) := by
    simp
  have hsf :
      (([(r, pr)] : List (Nat × StoreSalesTransaction)).map Prod.fst).filter
        (fun i => !(List.contains [r] i)) = [] := by
    simp [contains_singleton]
  constructor
  · show resolveGo (persistRetriable r codes) 1 MAX_ATTEMPTS batch = _
    rw [show MAX_ATTEMPTS = 3 + 2 from rfl]
    rw [resolveGo_persist_step codes hnd hmem 1 3]
    rw [show (3 : Nat) + 1 = 2 + 2 from rfl]
    rw [resolveGo_persist_step codes hnd1 hmem1 2 2]
    rw [show (2 : Nat) + 1 = 1 + 2 from rfl]
    rw [resolveGo_persist_step codes hnd1 hmem1 3 1]
    rw [show (1 : Nat) + 1 = 0 + 2 from rfl]
    rw [resolveGo_persist_step codes hnd1 hmem1 4 0]
    rw [show (0 : Nat) + 1 = 1 from rfl]
    rw [resolveGo_persist_last codes r pr 5]
    simp [hsf]
  · simp [MAX_ATTEMPTS]

/-- Witness for C4 at a concrete two-record batch whose record 1 keeps
failing retriably. -/
theorem c4_retry_bounded_witness :
    resolve (persistRetriable 1 c4Codes) c4Batch =
      ⟨(c4Batch.map Prod.fst).filter (fun i => !(List.contains [1] i)),
       [(1, c4Codes MAX_ATTEMPTS)],
       c4Batch :: List.replicate (MAX_ATTEMPTS - 1) [(1, goodPayload)]⟩ ∧
    (c4Batch :: List.replicate (MAX_ATTEMPTS - 1) [(1, goodPayload)]).length =
      MAX_ATTEMPTS :=
  c4_retry_bounded c4Codes 1 goodPayload c4Batch (by decide) (by decide)
